import Mathlib

/-!
# HTTPServer: thread pool (threadpool.c) and connection handler (server.c)

A shallow embedding of the two C source files.

* Pointers to `work_t` nodes are natural-number addresses, `NULL` is `none`,
  and the allocated nodes form a heap `Nat → Option work_t`.
* Code that runs between `pthread_mutex_lock` and `pthread_mutex_unlock` is one
  atomic function; its result says whether the section ran to the unlock, is
  suspended in `pthread_cond_wait`, or dereferenced an invalid pointer.
* C strings are `List Char`.
-/

namespace HTTPServer

set_option maxRecDepth 8000

/-! ## threadpool.c -/

/-- Result of a section of code that runs under `qlock`. -/
inductive Res (α : Type) where
  /-- the section reached `pthread_mutex_unlock` -/
  | done (a : α)
  /-- the thread is suspended in `pthread_cond_wait`; `a` is the state it left -/
  | waits (a : α)
  /-- undefined behaviour: `NULL` or dangling pointer dereferenced, or signed overflow -/
  | fault
deriving DecidableEq

/-- Largest value of a C `int`. -/
def INT_MAX : Int := 2147483647

/-- The queue node `work_t` (declared in threadpool.h; fields as used in
threadpool.c lines 66-68, 80, 135, 145). `routine` and `arg` are opaque machine
words. -/
structure work_t where
  routine : Nat
  arg : Nat
  next : Option Nat
deriving DecidableEq

/-- Allocated `work_t` nodes by address; `none` is memory that is not allocated. -/
abbrev Heap := Nat → Option work_t

/-- Store `w` at address `p`. -/
def Heap.set (h : Heap) (p : Nat) (w : work_t) : Heap :=
  fun a => if a = p then some w else h a

/-- Deallocate address `p` (`free`). -/
def Heap.free (h : Heap) (p : Nat) : Heap :=
  fun a => if a = p then none else h a

/-- The pool `threadpool` (declared in threadpool.h; fields as used in
threadpool.c lines 22-35). The thread handles, the mutex and the condition
variables carry no data. -/
structure threadpool where
  num_threads : Int
  qsize : Int
  max_qsize : Int
  qhead : Option Nat
  qtail : Option Nat
  shutdown : Int
  dont_accept : Int
deriving DecidableEq

/-- `create_threadpool` (threadpool.c lines 10-57). `MAXT_IN_POOL` and
`MAXW_IN_QUEUE` are macros of threadpool.h and are taken as parameters;
`resources` says whether every `malloc`, `pthread_*_init` and `pthread_create`
succeeded. -/
def create_threadpool (MAXT_IN_POOL MAXW_IN_QUEUE : Int)
    (num_threads_in_pool max_queue_size : Int) (resources : Bool) : Option threadpool :=
  if num_threads_in_pool ≤ 0 ∨ num_threads_in_pool > MAXT_IN_POOL ∨
      max_queue_size ≤ 0 ∨ max_queue_size > MAXW_IN_QUEUE then
    none
  else if !resources then
    none
  else
    some
      { num_threads := num_threads_in_pool
        qsize := 0
        max_qsize := max_queue_size
        qhead := none
        qtail := none
        shutdown := 0
        dont_accept := 0 }

/-- The locked section of `dispatch` (threadpool.c lines 70-86) for the node
`new_work` that lines 60-68 allocated and filled in. -/
def dispatch_locked (from_me : threadpool) (heap : Heap) (new_work : Nat) :
    Res (threadpool × Heap) :=
  if from_me.dont_accept ≠ 0 ∨ from_me.qsize = from_me.max_qsize then
    .waits (from_me, heap)
  else
    match from_me.qhead with
    | none =>
      if from_me.qsize = INT_MAX then .fault
      else
        .done ({ from_me with
                  qhead := some new_work, qtail := some new_work,
                  qsize := from_me.qsize + 1 }, heap)
    | some _ =>
      match from_me.qtail with
      | none => .fault
      | some t =>
        match heap t with
        | none => .fault
        | some tw =>
          if from_me.qsize = INT_MAX then .fault
          else
            .done ({ from_me with qtail := some new_work, qsize := from_me.qsize + 1 },
                   heap.set t { tw with next := some new_work })

/-- The function `dispatch` (threadpool.c lines 59-87): `malloc_result` is what
`malloc` returns, `none` for `NULL`. -/
def dispatch (from_me : threadpool) (heap : Heap) (dispatch_to_here arg : Nat)
    (malloc_result : Option Nat) : Res (threadpool × Heap) :=
  match malloc_result with
  | none => .done (from_me, heap)
  | some new_work =>
    dispatch_locked from_me
      (heap.set new_work { routine := dispatch_to_here, arg := arg, next := none }) new_work

/-- The locked section of one iteration of `do_work` (threadpool.c lines
123-143). The second component is the `work` pointer taken from the queue, or
`none` when the worker waits or leaves its loop at line 131. -/
def do_work_locked (pool : threadpool) (heap : Heap) : Res (threadpool × Option Nat) :=
  if pool.qsize = 0 ∧ pool.shutdown = 0 then
    .waits (pool, none)
  else if pool.shutdown ≠ 0 then
    .done (pool, none)
  else
    match pool.qhead with
    | none => .fault
    | some work =>
      match heap work with
      | none => .fault
      | some w =>
        if pool.qsize = -INT_MAX - 1 then .fault
        else .done ({ pool with qhead := w.next, qsize := pool.qsize - 1 }, some work)

/-- The wait loop and the end of the locked section of `destroy_threadpool`
(threadpool.c lines 93-99): what the destroying thread does each time it holds
the lock at the loop test. -/
def destroy_threadpool_wait (destroyme : threadpool) : Res threadpool :=
  if destroyme.qsize > 0 then .waits destroyme
  else .done { destroyme with shutdown := 1 }

/-- The locked section of `destroy_threadpool` from its entry (threadpool.c
lines 90-99). -/
def destroy_threadpool_locked (destroyme : threadpool) : Res threadpool :=
  destroy_threadpool_wait { destroyme with dont_accept := 1 }

/-- The pool together with the memory it points into and the history of the
run: `held` are the `work` pointers that workers took at line 134 and have not
yet freed at line 146, `enqueued` the jobs appended by `dispatch` in the order
of appending, `handed` the jobs taken by workers in the order of taking. -/
structure World where
  pool : threadpool
  heap : Heap
  held : List Nat
  enqueued : List (Nat × Nat)
  handed : List (Nat × Nat)

/-- The world right after `create_threadpool` returned `pool`. -/
def World.init (pool : threadpool) : World :=
  { pool := pool, heap := fun _ => none, held := [], enqueued := [], handed := [] }

/-- The job stored in the node at address `a`. -/
def job_at (heap : Heap) (a : Nat) : Nat × Nat :=
  match heap a with
  | some w => (w.routine, w.arg)
  | none => (0, 0)

/-- The atomic steps of the threads that use a pool. -/
inductive Op where
  /-- a producer calls `dispatch(pool, routine, arg)` and `malloc` returns `malloc_result` -/
  | dispatch (routine arg : Nat) (malloc_result : Option Nat)
  /-- a worker runs lines 123-143 of `do_work` -/
  | do_work
  /-- the worker holding `work` runs lines 145-146: the routine, then `free(work)` -/
  | run (work : Nat)
  /-- a thread enters `destroy_threadpool` and runs from line 90 -/
  | destroy
  /-- the thread suspended at line 94 is woken and tests the loop condition again -/
  | destroy_wake
deriving DecidableEq

/-- One step. `none` is undefined behaviour. A step that cannot proceed in `w`
(its thread stays suspended in `pthread_cond_wait`; `malloc` cannot return an
address that is still allocated; no worker holds `work`) leaves `w` as it is. -/
def World.step (w : World) : Op → Option World
  | .dispatch routine arg none =>
    match dispatch w.pool w.heap routine arg none with
    | .done (p, h) => some { w with pool := p, heap := h }
    | .waits _ => some w
    | .fault => none
  | .dispatch routine arg (some a) =>
    if (w.heap a).isSome then some w
    else
      match dispatch w.pool w.heap routine arg (some a) with
      | .done (p, h) =>
        some { w with pool := p, heap := h, enqueued := w.enqueued ++ [(routine, arg)] }
      | .waits _ => some w
      | .fault => none
  | .do_work =>
    match do_work_locked w.pool w.heap with
    | .done (p, some work) =>
      some { w with pool := p, held := work :: w.held,
                    handed := w.handed ++ [job_at w.heap work] }
    | .done (p, none) => some { w with pool := p }
    | .waits _ => some w
    | .fault => none
  | .run work =>
    if work ∈ w.held then
      match w.heap work with
      | none => none
      | some _ => some { w with heap := w.heap.free work, held := w.held.erase work }
    else some w
  | .destroy =>
    match destroy_threadpool_locked w.pool with
    | .done p => some { w with pool := p }
    | .waits p => some { w with pool := p }
    | .fault => none
  | .destroy_wake =>
    if w.pool.dont_accept = 0 then some w
    else
      match destroy_threadpool_wait w.pool with
      | .done p => some { w with pool := p }
      | .waits _ => some w
      | .fault => none

/-- Run a schedule, a finite sequence of steps. -/
def World.run (w : World) : List Op → Option World
  | [] => some w
  | op :: ops =>
    match w.step op with
    | none => none
    | some w1 => w1.run ops

/-- The list `q` is the chain of node addresses from `p` to `NULL`. -/
def IsSeg (heap : Heap) : Option Nat → List Nat → Prop
  | p, [] => p = none
  | p, a :: rest => p = some a ∧ ∃ n, heap a = some n ∧ IsSeg heap n.next rest

/-! ## server.c -/

/-- The characters of a string literal of the C source. -/
def str (s : String) : List Char := s.data

/-- `MAX_REQUEST_SIZE` (server.c line 14). -/
def MAX_REQUEST_SIZE : Nat := 4000

/-- `MAX_PATH_SIZE` (server.c line 15). -/
def MAX_PATH_SIZE : Nat := 4096

/-- What a connection handler does that is visible outside it, in order: bytes
passed to `send`, `close` of the socket, the call of `sscanf` on the request
buffer, and the file system calls with their path argument. -/
inductive Event where
  | send (bytes : List Char)
  | close
  | sscanf (request : List Char)
  | stat (path : List Char)
  | access (path : List Char)
  | fopen (path : List Char)
  | opendir (path : List Char)
deriving DecidableEq

/-- The classification of `st_mode` by `S_ISDIR` and `S_ISREG`. -/
inductive FileKind where
  | dir
  | reg
  | other
deriving DecidableEq

/-- The fields of `struct stat` that server.c reads. -/
structure Stat where
  kind : FileKind
  st_size : Int
  st_mtime : Int
deriving DecidableEq

/-- Everything outside the handler that its run depends on.
`before` is the byte that lies in memory right before the array `request`
(line 139 reads it when the first byte has been stored); `input` are the bytes
that successive `read` calls deliver, after which `read` returns a value `≤ 0`;
`now` is `time(NULL)`; `rfc1123 t` is the string that `strftime` produces for
`gmtime(&t)` with `RFC1123FMT`; `stat`, `readable`, `fopen`, `opendir` are the
results of the system calls (`none` for failure; `fopen` gives the file
contents, `opendir` the names that `readdir` yields in order). -/
structure Env where
  before : Char
  input : List Char
  now : Int
  rfc1123 : Int → List Char
  stat : List Char → Option Stat
  readable : List Char → Bool
  fopen : List Char → Option (List Char)
  opendir : List Char → Option (List (List Char))

/-- A `char` array that successive `snprintf` calls fill: `text` is the C
string in the array, `len` is the running sum `response_len` of the values
returned by `snprintf`. As long as `len` is below the array size nothing was
cut, and the string ends at offset `len`. -/
structure Buf where
  text : List Char
  len : Nat
deriving DecidableEq

/-- The call `response_len += snprintf(buf + response_len, size - response_len, ..)`
producing the characters `s` on an array of `size` bytes. With room left, at
most `size - len - 1` characters and a NUL are stored; with `len = size` the
size argument is 0 and nothing is stored; with `len > size` the size argument
wraps around as a `size_t` and the call writes outside the array (`none`). -/
def Buf.snprintf (size : Nat) (b : Buf) (s : List Char) : Option Buf :=
  if b.len < size then
    some { text := b.text ++ s.take (size - b.len - 1), len := b.len + s.length }
  else if b.len = size then
    some { b with len := b.len + s.length }
  else
    none

/-- A `snprintf` call that is made only when its string argument is not
`NULL` (or its guard holds): `none` leaves the array as it is. -/
def Buf.snprintf_opt (size : Nat) (b : Buf) : Option (List Char) → Option Buf
  | some s => b.snprintf size s
  | none => some b

/-- An array of `size` bytes in memory that holds the C string `text` followed
by NUL bytes. -/
structure Obj where
  text : List Char
  size : Nat
deriving DecidableEq

/-- The bytes that `send(sock, object, n, 0)` takes from an object in memory;
`none` when `n` is negative or reaches beyond the object. -/
def send_bytes (object : Obj) (n : Int) : Option (List Char) :=
  if 0 ≤ n ∧ n ≤ object.size then
    some ((object.text ++ List.replicate (object.size - object.text.length) '\x00').take n.toNat)
  else none

/-- The conversion `%ld`. -/
def fmt_ld (n : Int) : List Char := (toString n).data

/-- `send_response` (server.c lines 221-263). A `NULL` argument is `none`;
`body` is the object that the pointer `body` points to. -/
def send_response (env : Env) (status status_msg : List Char)
    (content_type : Option (List Char)) (body : Option Obj) (content_length : Int)
    (location : Option (List Char)) (last_modified : Int) : Option (List Event) :=
  (Buf.snprintf 8192 { text := [], len := 0 }
    ((str "HTTP/1.0 ") ++ status ++ str " " ++ status_msg ++ str "\r\n" ++
      str "Server: webserver/1.0\r\n" ++ str "Date: " ++ env.rfc1123 env.now ++
      str "\r\n")).bind fun b0 =>
  (b0.snprintf_opt 8192
    (location.map fun l => (str "Location: ") ++ l ++ str "\r\n")).bind fun b1 =>
  (b1.snprintf_opt 8192
    (content_type.map fun t => (str "Content-Type: ") ++ t ++ str "\r\n")).bind fun b2 =>
  (b2.snprintf 8192
    ((str "Content-Length: ") ++ fmt_ld content_length ++ str "\r\n")).bind fun b3 =>
  (b3.snprintf_opt 8192
    (if body.isSome ∧ last_modified > 0 then
      some ((str "Last-Modified: ") ++ env.rfc1123 last_modified ++ str "\r\n")
    else none)).bind fun b4 =>
  (b4.snprintf 8192 (str "Connection: close\r\n\r\n")).bind fun b5 =>
  (send_bytes { text := b5.text, size := 8192 } b5.len).bind fun head =>
  match body with
  | some object =>
    (send_bytes object content_length).map fun bytes => [Event.send head, Event.send bytes]
  | none => some [Event.send head]

/-- The body text chosen by the `switch` of `send_error_response` (server.c
lines 311-330). -/
def error_body (status_code : Int) : List Char :=
  if status_code = 400 then
    str "<HTML><HEAD><TITLE>400 Bad Request</TITLE></HEAD><BODY><H4>400 Bad Request</H4>Bad request.</BODY></HTML>"
  else if status_code = 403 then
    str "<HTML><HEAD><TITLE>403 Forbidden</TITLE></HEAD><BODY><H4>403 Forbidden</H4>Access denied.</BODY></HTML>"
  else if status_code = 404 then
    str "<HTML><HEAD><TITLE>404 Not Found</TITLE></HEAD><BODY><H4>404 Not Found</H4>File not found.</BODY></HTML>"
  else if status_code = 500 then
    str "<HTML><HEAD><TITLE>500 Internal Server Error</TITLE></HEAD><BODY><H4>500 Internal Server Error</H4>Some server side error.</BODY></HTML>"
  else if status_code = 501 then
    str "<HTML><HEAD><TITLE>501 Not supported</TITLE></HEAD><BODY><H4>501 Not supported</H4>Method is not supported.</BODY></HTML>"
  else
    str "<HTML><HEAD><TITLE>500 Internal Server Error</TITLE></HEAD><BODY><H4>500 Internal Server Error</H4>Some server side error.</BODY></HTML>"

/-- `send_error_response` (server.c lines 309-332). -/
def send_error_response (env : Env) (status_code : Int) (status_msg : List Char) :
    Option (List Event) :=
  let body := error_body status_code
  send_response env (if status_code = 302 then str "302" else str "400") status_msg
    (some (str "text/html")) (some { text := body, size := body.length + 1 }) body.length none 0

/-- `strrchr`: the part of `s` from the last occurrence of `c` on. -/
def strrchr : List Char → Char → Option (List Char)
  | [], _ => none
  | x :: xs, c =>
    match strrchr xs c with
    | some r => some r
    | none => if x = c then some (x :: xs) else none

/-- `get_mime_type` (server.c lines 335-349). -/
def get_mime_type (name : List Char) : Option (List Char) :=
  match strrchr name '.' with
  | none => none
  | some ext =>
    if ext = str ".html" ∨ ext = str ".htm" then some (str "text/html")
    else if ext = str ".jpg" ∨ ext = str ".jpeg" then some (str "image/jpeg")
    else if ext = str ".gif" then some (str "image/gif")
    else if ext = str ".png" then some (str "image/png")
    else if ext = str ".css" then some (str "text/css")
    else if ext = str ".au" then some (str "audio/basic")
    else if ext = str ".wav" then some (str "audio/wav")
    else if ext = str ".avi" then some (str "video/x-msvideo")
    else if ext = str ".mpeg" ∨ ext = str ".mpg" then some (str "video/mpeg")
    else if ext = str ".mp3" then some (str "audio/mpeg")
    else none

/-- The blocks that the loop of `fread(buffer, 1, 4096, file)` delivers until
it returns 0; `fuel` bounds the number of blocks. -/
def fread_blocks : Nat → List Char → List (List Char)
  | 0, _ => []
  | _ + 1, [] => []
  | fuel + 1, c :: cs => (c :: cs).take 4096 :: fread_blocks fuel ((c :: cs).drop 4096)

/-- `send_file_response` (server.c lines 265-282). -/
def send_file_response (env : Env) (file_path : List Char) (content_length : Int)
    (last_modified : Int) : Option (List Event) :=
  match env.fopen file_path with
  | none => do
    let e ← send_error_response env 500 (str "Internal Server Error")
    pure (Event.fopen file_path :: e)
  | some contents => do
    let mime_type := get_mime_type file_path
    let e ← send_response env (str "200") (str "OK") mime_type none content_length none
      last_modified
    pure (Event.fopen file_path :: e ++
      (fread_blocks contents.length contents).map Event.send)

/-- The list item that line 299-300 prints for the entry `d_name`. -/
def listing_item (request_path d_name : List Char) : List Char :=
  str "<li><a href=\"" ++ request_path ++ str "/" ++ d_name ++ str "\">" ++ d_name ++
    str "</a></li>"

/-- The `readdir` loop of `send_directory_listing` (server.c lines 295-301). -/
def listing_loop (request_path : List Char) : List (List Char) → Buf → Option Buf
  | [], b => some b
  | d_name :: rest, b =>
    if d_name = str "." ∨ d_name = str ".." then listing_loop request_path rest b
    else (b.snprintf 8192 (listing_item request_path d_name)).bind
      (listing_loop request_path rest)

/-- `send_directory_listing` (server.c lines 284-307). -/
def send_directory_listing (env : Env) (dir_path request_path : List Char) :
    Option (List Event) :=
  match env.opendir dir_path with
  | none => do
    let e ← send_error_response env 500 (str "Internal Server Error")
    pure (Event.opendir dir_path :: e)
  | some entries => do
    let start := str "<html><body><h1>Directory Listing</h1><ul>"
    let b0 : Buf := { text := start, len := start.length }
    let b1 ← listing_loop request_path entries b0
    let b2 ← b1.snprintf 8192 (str "</ul></body></html>")
    let e ← send_response env (str "200") (str "OK") (some (str "text/html"))
      (some { text := b2.text, size := 8192 }) b2.len none 0
    pure (Event.opendir dir_path :: e)

/-- The read loop of `handle_client_connection` (server.c lines 130-142):
`remaining` as in the source, `last` the byte at `ptr - 1` before the read
(for the first read the byte before the array). The result is the bytes
stored in `request` from `ptr` on, or `none` when `read` returned `≤ 0`. -/
def read_request_line : Nat → Char → List Char → Option (List Char)
  | 0, _, _ => some []
  | _ + 1, _, [] => none
  | remaining + 1, last, c :: input =>
    if last = '\r' ∧ c = '\n' then some [c]
    else (read_request_line remaining c input).map (c :: ·)

/-- The C string that starts at the beginning of a byte array: its bytes up to
the first NUL. -/
def c_string (bytes : List Char) : List Char :=
  bytes.takeWhile (· ≠ '\x00')

/-- `isspace` in the C locale. -/
def isspace (c : Char) : Bool :=
  c = ' ' ∨ c = '\t' ∨ c = '\n' ∨ c = '\x0b' ∨ c = '\x0c' ∨ c = '\r'

/-- The conversion `%<width>s` of `sscanf`: skip white space, then take
characters up to the next white space, at most `width`. `none` when the input
ends before a character is found; otherwise the token and the rest of the
input. -/
def scan_s (width : Nat) (s : List Char) : Option (List Char × List Char) :=
  let s1 := s.dropWhile isspace
  let tok := (s1.takeWhile (fun c => !isspace c)).take width
  if tok = [] then none else some (tok, s1.drop tok.length)

/-- The result of `sscanf(request, "%9s %4095s %9s", method, path, protocol)`:
the return value and the three arrays (empty where nothing was stored). -/
structure Scanned where
  count : Int
  method : List Char
  path : List Char
  protocol : List Char
deriving DecidableEq

/-- `sscanf(request, "%9s %4095s %9s", method, path, protocol)` (server.c line 147). -/
def sscanf_request (request : List Char) : Scanned :=
  match scan_s 9 request with
  | none => { count := -1, method := [], path := [], protocol := [] }
  | some (method, r1) =>
    match scan_s 4095 r1 with
    | none => { count := 1, method := method, path := [], protocol := [] }
    | some (path, r2) =>
      match scan_s 9 r2 with
      | none => { count := 2, method := method, path := path, protocol := [] }
      | some (protocol, _) =>
        { count := 3, method := method, path := path, protocol := protocol }

/-- The part of `handle_client_connection` after the request line was parsed
and checked (server.c lines 169-213), with the `close` and the return value
of each path. -/
def serve_path (env : Env) (path : List Char) : Option (List Event × Int) :=
  let full_path := ((str ".") ++ path).take (MAX_PATH_SIZE - 1)
  match env.stat full_path with
  | none => do
    let e ← send_error_response env 404 (str "Not Found")
    pure (Event.stat full_path :: e ++ [Event.close], 1)
  | some st =>
    match st.kind with
    | .dir =>
      if path.getLast? ≠ some '/' then do
        let new_location := (path ++ str "/").take (MAX_PATH_SIZE - 1)
        let e ← send_response env (str "302") (str "Found") none none 0 (some new_location) 0
        pure (Event.stat full_path :: e ++ [Event.close], 0)
      else
        let index_path := (full_path ++ str "/index.html").take (MAX_PATH_SIZE + 10 - 1)
        match env.stat index_path with
        | some { kind := .reg, st_size := size, st_mtime := mtime } => do
          let e ← send_file_response env index_path size mtime
          pure (Event.stat full_path :: Event.stat index_path :: e ++ [Event.close], 0)
        | _ => do
          let e ← send_directory_listing env full_path path
          pure (Event.stat full_path :: Event.stat index_path :: e ++ [Event.close], 0)
    | .reg =>
      if !env.readable full_path then do
        let e ← send_error_response env 403 (str "Forbidden")
        pure (Event.stat full_path :: Event.access full_path :: e ++ [Event.close], 0)
      else do
        let e ← send_file_response env full_path st.st_size st.st_mtime
        pure (Event.stat full_path :: Event.access full_path :: e ++ [Event.close], 0)
    | .other => do
      let e ← send_error_response env 403 (str "Forbidden")
      pure (Event.stat full_path :: e ++ [Event.close], 0)

/-- `handle_client_connection` (server.c lines 122-214): the events in order
and the return value; `none` is undefined behaviour. -/
def handle_client_connection (env : Env) : Option (List Event × Int) :=
  match read_request_line MAX_REQUEST_SIZE env.before env.input with
  | none => do
    let e ← send_error_response env 500 (str "Internal Server Error")
    pure (e ++ [Event.close], 1)
  | some bytes =>
    let request := c_string bytes
    let r := sscanf_request request
    if r.count ≠ 3 then do
      let e ← send_error_response env 400 (str "Bad Request")
      pure (Event.sscanf request :: e ++ [Event.close], 1)
    else if r.protocol ≠ str "HTTP/1.0" ∧ r.protocol ≠ str "HTTP/1.1" then do
      let e ← send_error_response env 400 (str "Bad Request")
      pure (Event.sscanf request :: e ++ [Event.close], 1)
    else if r.method ≠ str "GET" then do
      let e ← send_error_response env 501 (str "Not Supported")
      pure (Event.sscanf request :: e ++ [Event.close], 1)
    else do
      let (e, ret) ← serve_path env r.path
      pure (Event.sscanf request :: e, ret)

/-- Specification side: the text of an optional header line, empty when the
line is not printed. -/
def opt_text : Option (List Char) → List Char
  | some s => s
  | none => []

/-- Specification side: the response head that the format strings of
`send_response` (server.c lines 229-256) describe, without the limit of the
array `response`; `last_modified` is the formatted date when the
`Last-Modified` line is printed, `none` when it is not. -/
def response_head (date status status_msg : List Char)
    (location content_type : Option (List Char)) (content_length : Int)
    (last_modified : Option (List Char)) : List Char :=
  str "HTTP/1.0 " ++ status ++ str " " ++ status_msg ++ str "\r\n" ++
    str "Server: webserver/1.0\r\n" ++ str "Date: " ++ date ++ str "\r\n" ++
  opt_text (location.map fun l => (str "Location: ") ++ l ++ str "\r\n") ++
  opt_text (content_type.map fun t => (str "Content-Type: ") ++ t ++ str "\r\n") ++
  ((str "Content-Length: ") ++ fmt_ld content_length ++ str "\r\n") ++
  opt_text (last_modified.map fun d => (str "Last-Modified: ") ++ d ++ str "\r\n") ++
  str "Connection: close\r\n\r\n"

/-- Specification side, not a function of the source: the white-space
separated tokens of a string, that is its maximal runs of characters that are
not `isspace`, in order. The claims about request lines count these tokens;
`scan_s` and `sscanf_request` are what the source does. -/
def tokens : List Char → List (List Char)
  | [] => []
  | c :: cs =>
    if isspace c then tokens cs
    else if (cs.head?.map isspace).getD true then [c] :: tokens cs
    else
      match tokens cs with
      | t :: ts => (c :: t) :: ts
      | [] => [[c]]

/-- A small server root used for concrete runs: the directory `./` whose
`readdir` yields `entries`, the sub-directory `./dir`, and the readable regular
file `./a.html` of 5 bytes with modification time 1000000000; nothing else
exists. The clock stands at 0 and the byte before `request` is `x`. -/
def sample_env (input : List Char) (entries : List (List Char)) : Env :=
  { before := 'x'
    input := input
    now := 0
    rfc1123 := fun t =>
      if t = 1000000000 then str "Sun, 09 Sep 2001 01:46:40 GMT"
      else str "Thu, 01 Jan 1970 00:00:00 GMT"
    stat := fun p =>
      if p = str "./" ∨ p = str "./dir" then
        some { kind := .dir, st_size := 4096, st_mtime := 1000000000 }
      else if p = str "./a.html" then
        some { kind := .reg, st_size := 5, st_mtime := 1000000000 }
      else none
    readable := fun p => p = str "./a.html"
    fopen := fun p => if p = str "./a.html" then some (str "hello") else none
    opendir := fun p => if p = str "./" then some entries else none }

/-- A request of exactly 4000 bytes without CR or LF: a request line padded
with blanks. -/
def padded_request : List Char := str "GET /a.html HTTP/1.1" ++ List.replicate 3980 ' '

/-- Specification side: the list items of a directory enumeration without the
limit of the array `response_body`, one item per entry other than `.` and
`..`, in order. -/
def listing_items (request_path : List Char) : List (List Char) → List Char
  | [] => []
  | d_name :: rest =>
    if d_name = str "." ∨ d_name = str ".." then listing_items request_path rest
    else listing_item request_path d_name ++ listing_items request_path rest

/-- A directory enumeration of 16 entries with names of 255 characters. -/
def big_dir : List (List Char) := List.replicate 16 (List.replicate 255 'a')

/-- A request path of 3988 characters: a slash followed by 3987 letters `a`. -/
def long_path : List Char := '/' :: List.replicate 3987 'a'

/-- The server root of `sample_env` with `.` followed by `long_path` as its only
entry, a directory; the input is the request line `GET long_path HTTP/1.1`
ended by CR LF. -/
def long_path_env : Env :=
  { sample_env (str "GET " ++ long_path ++ ' ' :: str "HTTP/1.1" ++ ['\r', '\n']) [] with
    stat := fun p =>
      if p = str "." ++ long_path then
        some { kind := .dir, st_size := 4096, st_mtime := 1000000000 }
      else none }

/-! ## Invariant of the pool -/

/-- The invariant of the pool: `q` is the chain of queued nodes. -/
structure Inv (cap : Int) (w : World) (q : List Nat) : Prop where
  seg : IsSeg w.heap w.pool.qhead q
  nodup : q.Nodup
  size : w.pool.qsize = q.length
  tail : q ≠ [] → w.pool.qtail = q.getLast?
  held_nodup : w.held.Nodup
  held_alloc : ∀ a ∈ w.held, w.heap a ≠ none
  disj : ∀ a ∈ q, a ∉ w.held
  hist : w.enqueued = w.handed ++ q.map (job_at w.heap)
  cap_eq : w.pool.max_qsize = cap
  le_cap : w.pool.qsize ≤ cap
  cap_int : cap ≤ INT_MAX
  down : w.pool.shutdown ≠ 0 → w.pool.dont_accept ≠ 0 ∧ w.pool.qsize = 0

/-! ### Chains of nodes -/

theorem IsSeg.alloc {heap : Heap} : ∀ {q : List Nat} {p : Option Nat},
    IsSeg heap p q → ∀ a ∈ q, heap a ≠ none
  | [], _, _, a, ha => by simp at ha
  | b :: rest, p, h, a, ha => by
    obtain ⟨_, n, hn, hrest⟩ := h
    rcases List.mem_cons.1 ha with rfl | ha
    · simp [hn]
    · exact IsSeg.alloc hrest a ha

theorem IsSeg.congr {heap heap2 : Heap} : ∀ {q : List Nat} {p : Option Nat},
    IsSeg heap p q → (∀ a ∈ q, heap2 a = heap a) → IsSeg heap2 p q
  | [], _, h, _ => h
  | b :: rest, p, h, hq => by
    obtain ⟨hp, n, hn, hrest⟩ := h
    refine ⟨hp, n, ?_, IsSeg.congr hrest fun a ha => hq a (List.mem_cons_of_mem _ ha)⟩
    rw [hq b (List.mem_cons_self _ _), hn]

theorem IsSeg.append_tail {heap : Heap} {t nw : Nat} {tw nn : work_t}
    (ht : heap t = some tw) (hnw : heap nw = some nn) (hnn : nn.next = none) :
    ∀ {q : List Nat} {p : Option Nat}, IsSeg heap p q → q.Nodup → q.getLast? = some t →
      nw ∉ q → IsSeg (heap.set t { tw with next := some nw }) p (q ++ [nw])
  | [], _, _, _, hl, _ => by simp at hl
  | [b], p, h, _, hl, hmem => by
    obtain ⟨hp, n, _, _⟩ := h
    have hbt : b = t := by simpa using hl
    subst hbt
    have hne : nw ≠ b := fun e => hmem (by simp [e])
    refine ⟨hp, { tw with next := some nw }, by simp [Heap.set], rfl, nn, ?_, ?_⟩
    · simp [Heap.set, hne, hnw]
    · simpa [IsSeg] using hnn
  | b :: c :: rest, p, h, hnd, hl, hmem => by
    obtain ⟨hp, n, hn, hrest⟩ := h
    have hl2 : (c :: rest).getLast? = some t := by
      rw [List.getLast?_cons_cons] at hl; exact hl
    have htin : t ∈ c :: rest := List.mem_of_getLast?_eq_some hl2
    have hbt : b ≠ t := fun e => (List.nodup_cons.1 hnd).1 (e ▸ htin)
    refine ⟨hp, n, by simp [Heap.set, hbt, hn], ?_⟩
    exact IsSeg.append_tail ht hnw hnn hrest (List.nodup_cons.1 hnd).2 hl2
      fun hm => hmem (List.mem_cons_of_mem _ hm)

theorem map_job_at_congr {heap heap2 : Heap} {q : List Nat}
    (h : ∀ a ∈ q, job_at heap2 a = job_at heap a) :
    q.map (job_at heap2) = q.map (job_at heap) :=
  List.map_congr_left h

/-! ### The invariant is kept by every step -/

theorem Inv.init {MAXT MAXW n cap : Int} {res : Bool} {pool : threadpool}
    (hc : create_threadpool MAXT MAXW n cap res = some pool) (hint : cap ≤ INT_MAX) :
    Inv cap (World.init pool) [] := by
  unfold create_threadpool at hc
  split_ifs at hc with h1 h2
  have hp := (Option.some.inj hc).symm
  subst hp
  have hcap : (0 : Int) ≤ cap := by
    by_contra hneg
    exact h1 (Or.inr (Or.inr (Or.inl (by omega))))
  constructor <;> simp [World.init, IsSeg, hint, hcap]

theorem Inv.step_dispatch {cap : Int} {w : World} {q : List Nat} (h : Inv cap w q)
    (routine arg : Nat) (m : Option Nat) :
    ∃ w2 q2, w.step (.dispatch routine arg m) = some w2 ∧ Inv cap w2 q2 := by
  cases m with
  | none => exact ⟨w, q, by simp [World.step, dispatch], h⟩
  | some a =>
    by_cases hal : (w.heap a).isSome
    · exact ⟨w, q, by simp [World.step, hal], h⟩
    have ha : w.heap a = none := by simpa using hal
    by_cases hg : w.pool.dont_accept ≠ 0 ∨ w.pool.qsize = w.pool.max_qsize
    · exact ⟨w, q, by simp [World.step, ha, dispatch, dispatch_locked, hg], h⟩
    have hacc : w.pool.dont_accept = 0 := by
      by_contra hne; exact hg (Or.inl hne)
    have hlt : w.pool.qsize < cap := by
      have h1 := h.le_cap
      have h2 := h.cap_eq
      have h3 : w.pool.qsize ≠ w.pool.max_qsize := fun e => hg (Or.inr e)
      omega
    have hmax : w.pool.qsize ≠ INT_MAX := by
      have := h.cap_int; omega
    have haq : a ∉ q := fun hm => h.seg.alloc a hm ha
    have hah : a ∉ w.held := fun hm => h.held_alloc a hm ha
    have hdown : ¬ w.pool.shutdown ≠ 0 := fun hs => (h.down hs).1 hacc
    cases hq : q with
    | nil =>
      have hseg := h.seg
      rw [hq] at hseg
      have hhead : w.pool.qhead = none := hseg
      have hsz : w.pool.qsize = 0 := by simpa [hq] using h.size
      refine ⟨_, [a], by
        simp only [World.step, ha, dispatch, dispatch_locked, hg, hhead, hmax]
        simp; rfl, ?_⟩
      constructor
      · exact ⟨rfl, { routine := routine, arg := arg, next := none }, by simp [Heap.set],
          by simp [IsSeg]⟩
      · simp
      · simp [hsz]
      · simp
      · exact h.held_nodup
      · intro b hb
        have hne : b ≠ a := fun e => hah (e ▸ hb)
        simpa [Heap.set, hne] using h.held_alloc b hb
      · intro b hb
        have hba : b = a := by simpa using hb
        exact hba ▸ hah
      · have hh := h.hist
        simp [hq] at hh
        simp [hh, job_at, Heap.set]
      · exact h.cap_eq
      · change w.pool.qsize + 1 ≤ cap
        omega
      · exact h.cap_int
      · intro hs; exact absurd hs hdown
    | cons b rest =>
      have hne : q ≠ [] := by simp [hq]
      have hseg := h.seg
      obtain ⟨t, htl⟩ : ∃ t, q.getLast? = some t := by
        cases hl : q.getLast? with
        | none => exact absurd (List.getLast?_eq_none_iff.1 hl) hne
        | some t => exact ⟨t, rfl⟩
      have htail : w.pool.qtail = some t := by rw [h.tail hne, htl]
      have htq : t ∈ q := List.mem_of_getLast?_eq_some htl
      have hta : t ≠ a := fun e => haq (e ▸ htq)
      obtain ⟨tw, htw⟩ : ∃ tw, w.heap t = some tw := by
        cases hx : w.heap t with
        | none => exact absurd hx (h.seg.alloc t htq)
        | some tw => exact ⟨tw, rfl⟩
      have hhead : w.pool.qhead = some b := by rw [hq] at hseg; exact hseg.1
      let nn : work_t := { routine := routine, arg := arg, next := none }
      let heap1 : Heap := w.heap.set a nn
      have htw1 : heap1 t = some tw := by simp [heap1, Heap.set, hta, htw]
      have hnn1 : heap1 a = some nn := by simp [heap1, Heap.set]
      have hseg1 : IsSeg heap1 w.pool.qhead q :=
        h.seg.congr fun c hc => by
          have : c ≠ a := fun e => haq (e ▸ hc)
          simp [heap1, Heap.set, this]
      have hseg2 := IsSeg.append_tail htw1 hnn1 rfl hseg1 h.nodup htl haq
      refine ⟨_, q ++ [a], by
        simp only [World.step, ha, dispatch, dispatch_locked, hg, hhead, htail, hmax]
        simp only [heap1, nn] at htw1
        simp [htw1]; rfl, ?_⟩
      constructor
      · rw [hhead] at hseg2; exact hseg2
      · exact List.Nodup.append h.nodup (by simp) (by simpa using haq)
      · simp [h.size]
      · intro _; simp
      · exact h.held_nodup
      · intro c hc
        have hca : c ≠ a := fun e => hah (e ▸ hc)
        have hc0 := h.held_alloc c hc
        by_cases hct : c = t
        · simp [Heap.set, hct]
        · simpa [Heap.set, hct, hca] using hc0
      · intro c hc
        rcases List.mem_append.1 hc with hc | hc
        · exact h.disj c hc
        · have hca : c = a := by simpa using hc
          exact hca ▸ hah
      · have hjobs : q.map (job_at ((w.heap.set a nn).set t { tw with next := some a }))
            = q.map (job_at w.heap) := by
          apply map_job_at_congr
          intro c hc
          have hca : c ≠ a := fun e => haq (e ▸ hc)
          by_cases hct : c = t
          · subst hct; simp [job_at, Heap.set, htw]
          · simp [job_at, Heap.set, hct, hca]
        have hja : job_at ((w.heap.set a nn).set t { tw with next := some a }) a
            = (routine, arg) := by
          simp [job_at, Heap.set, Ne.symm hta, nn]
        change w.enqueued ++ [(routine, arg)] = w.handed ++ (q ++ [a]).map _
        rw [List.map_append, hjobs, h.hist]
        simp [hja]
      · exact h.cap_eq
      · change w.pool.qsize + 1 ≤ cap
        omega
      · exact h.cap_int
      · intro hs; exact absurd hs hdown

theorem Inv.step_do_work {cap : Int} {w : World} {q : List Nat} (h : Inv cap w q) :
    ∃ w2 q2, w.step .do_work = some w2 ∧ Inv cap w2 q2 := by
  by_cases hg : w.pool.qsize = 0 ∧ w.pool.shutdown = 0
  · exact ⟨w, q, by simp [World.step, do_work_locked, hg], h⟩
  by_cases hs : w.pool.shutdown ≠ 0
  · exact ⟨w, q, by simp [World.step, do_work_locked, hg, hs], h⟩
  have hs0 : w.pool.shutdown = 0 := by
    by_contra hne; exact hs hne
  have hnz : w.pool.qsize ≠ 0 := fun e => hg ⟨e, hs0⟩
  cases hq : q with
  | nil => exact absurd (by simpa [hq] using h.size) hnz
  | cons b rest =>
    have hseg := h.seg
    rw [hq] at hseg
    obtain ⟨hhead, n, hn, hrest⟩ := hseg
    have hnd := h.nodup
    rw [hq] at hnd
    have hsz : w.pool.qsize = (rest.length : Int) + 1 := by simpa [hq] using h.size
    have hmin : w.pool.qsize ≠ -INT_MAX - 1 := by
      have : (0 : Int) ≤ rest.length := Int.natCast_nonneg _
      simp only [INT_MAX]; omega
    have hbh : b ∉ w.held := h.disj b (by simp [hq])
    refine ⟨_, rest, by
      simp only [World.step, do_work_locked, hg, hs, hhead, hn, hmin]
      simp; rfl, ?_⟩
    constructor
    · exact hrest
    · exact (List.nodup_cons.1 hnd).2
    · change w.pool.qsize - 1 = _
      omega
    · intro hne
      have ht := h.tail (by simp [hq])
      cases rest with
      | nil => exact absurd rfl hne
      | cons c rest2 =>
        rw [hq, List.getLast?_cons_cons] at ht
        exact ht
    · exact List.nodup_cons.2 ⟨hbh, h.held_nodup⟩
    · intro c hc
      rcases List.mem_cons.1 hc with rfl | hc
      · simp [hn]
      · exact h.held_alloc c hc
    · intro c hc hmem
      rcases List.mem_cons.1 hmem with rfl | hmem
      · exact (List.nodup_cons.1 hnd).1 hc
      · exact h.disj c (by simp [hq, hc]) hmem
    · have hh := h.hist
      rw [hq] at hh
      change w.enqueued = (w.handed ++ [job_at w.heap b]) ++ rest.map (job_at w.heap)
      simp [hh]
    · exact h.cap_eq
    · change w.pool.qsize - 1 ≤ cap
      have := h.le_cap
      omega
    · exact h.cap_int
    · intro hsd; exact absurd hsd hs

theorem Inv.step_run {cap : Int} {w : World} {q : List Nat} (h : Inv cap w q) (a : Nat) :
    ∃ w2 q2, w.step (.run a) = some w2 ∧ Inv cap w2 q2 := by
  by_cases hm : a ∈ w.held
  swap
  · exact ⟨w, q, by simp [World.step, hm], h⟩
  obtain ⟨n, hn⟩ : ∃ n, w.heap a = some n := by
    cases hx : w.heap a with
    | none => exact absurd hx (h.held_alloc a hm)
    | some n => exact ⟨n, rfl⟩
  have haq : a ∉ q := fun hq => h.disj a hq hm
  have hsame : ∀ c ∈ q, w.heap.free a c = w.heap c := fun c hc => by
    have : c ≠ a := fun e => haq (e ▸ hc)
    simp [Heap.free, this]
  refine ⟨_, q, by simp only [World.step, hm, hn]; simp; rfl, ?_⟩
  constructor
  · exact h.seg.congr hsame
  · exact h.nodup
  · exact h.size
  · exact h.tail
  · exact h.held_nodup.erase a
  · intro c hc
    have hc2 := (h.held_nodup.mem_erase_iff).1 hc
    have := h.held_alloc c hc2.2
    simpa [Heap.free, hc2.1] using this
  · intro c hc hmem
    exact h.disj c hc (List.mem_of_mem_erase hmem)
  · have hjobs : q.map (job_at (w.heap.free a)) = q.map (job_at w.heap) :=
      map_job_at_congr fun c hc => by simp [job_at, hsame c hc]
    change w.enqueued = w.handed ++ q.map (job_at (w.heap.free a))
    rw [hjobs]; exact h.hist
  · exact h.cap_eq
  · exact h.le_cap
  · exact h.cap_int
  · exact h.down

theorem Inv.set_flags {cap : Int} {w : World} {q : List Nat} (h : Inv cap w q) (s d : Int)
    (hd : s ≠ 0 → d ≠ 0 ∧ w.pool.qsize = 0) :
    Inv cap { w with pool := { w.pool with shutdown := s, dont_accept := d } } q :=
  { seg := h.seg, nodup := h.nodup, size := h.size, tail := h.tail
    held_nodup := h.held_nodup, held_alloc := h.held_alloc, disj := h.disj, hist := h.hist
    cap_eq := h.cap_eq, le_cap := h.le_cap, cap_int := h.cap_int, down := hd }

theorem Inv.size_nonneg {cap : Int} {w : World} {q : List Nat} (h : Inv cap w q) :
    0 ≤ w.pool.qsize := by
  rw [h.size]; exact Int.natCast_nonneg _

theorem Inv.step_destroy {cap : Int} {w : World} {q : List Nat} (h : Inv cap w q) :
    ∃ w2 q2, w.step .destroy = some w2 ∧ Inv cap w2 q2 := by
  by_cases hg : w.pool.qsize > 0
  · refine ⟨_, q, by
      simp only [World.step, destroy_threadpool_locked, destroy_threadpool_wait, hg]
      simp, h.set_flags w.pool.shutdown 1 fun hs => ⟨by decide, (h.down hs).2⟩⟩
  · refine ⟨_, q, by
      simp only [World.step, destroy_threadpool_locked, destroy_threadpool_wait, hg]
      simp, h.set_flags 1 1 fun _ => ⟨by decide, ?_⟩⟩
    have := h.size_nonneg
    omega

theorem Inv.step_destroy_wake {cap : Int} {w : World} {q : List Nat} (h : Inv cap w q) :
    ∃ w2 q2, w.step .destroy_wake = some w2 ∧ Inv cap w2 q2 := by
  by_cases hd : w.pool.dont_accept = 0
  · exact ⟨w, q, by simp [World.step, hd], h⟩
  by_cases hg : w.pool.qsize > 0
  · exact ⟨w, q, by simp [World.step, destroy_threadpool_wait, hd, hg], h⟩
  · refine ⟨_, q, by
      simp only [World.step, destroy_threadpool_wait, hd, hg]
      simp, h.set_flags 1 w.pool.dont_accept fun _ => ⟨hd, ?_⟩⟩
    have := h.size_nonneg
    omega

theorem Inv.step {cap : Int} {w : World} {q : List Nat} (h : Inv cap w q) (op : Op) :
    ∃ w2 q2, w.step op = some w2 ∧ Inv cap w2 q2 := by
  cases op with
  | dispatch routine arg m => exact h.step_dispatch routine arg m
  | do_work => exact h.step_do_work
  | run a => exact h.step_run a
  | destroy => exact h.step_destroy
  | destroy_wake => exact h.step_destroy_wake

theorem Inv.run {cap : Int} : ∀ (ops : List Op) {w : World} {q : List Nat}, Inv cap w q →
    ∃ w2 q2, w.run ops = some w2 ∧ Inv cap w2 q2
  | [], w, q, h => ⟨w, q, rfl, h⟩
  | op :: ops, w, q, h => by
    obtain ⟨w1, q1, hs, h1⟩ := h.step op
    obtain ⟨w2, q2, hr, h2⟩ := Inv.run ops h1
    exact ⟨w2, q2, by simp [World.run, hs, hr], h2⟩

theorem step_dont_accept {w w2 : World} (op : Op) (hs : w.step op = some w2)
    (hd : w.pool.dont_accept ≠ 0) : w2.pool.dont_accept ≠ 0 := by
  cases op with
  | dispatch routine arg m =>
    cases m with
    | none =>
      simp only [World.step, dispatch] at hs
      cases Option.some.inj hs; exact hd
    | some a =>
      simp only [World.step, dispatch, dispatch_locked, hd, ne_eq, not_false_eq_true,
        true_or, if_true] at hs
      split at hs <;> cases Option.some.inj hs <;> exact hd
  | do_work =>
    simp only [World.step, do_work_locked] at hs
    split at hs
    · rename_i p work heq
      split at heq
      · cases heq
      split at heq
      · cases heq
      split at heq
      · cases heq
      split at heq
      · cases heq
      split at heq
      · cases heq
      · cases heq; cases Option.some.inj hs; exact hd
    · rename_i p heq
      split at heq
      · cases heq
      split at heq
      · cases heq; cases Option.some.inj hs; exact hd
      split at heq
      · cases heq
      split at heq
      · cases heq
      split at heq <;> cases heq
    · cases Option.some.inj hs; exact hd
    · cases hs
  | run a =>
    simp only [World.step] at hs
    split at hs
    · split at hs
      · cases hs
      · cases Option.some.inj hs; exact hd
    · cases Option.some.inj hs; exact hd
  | destroy =>
    simp only [World.step, destroy_threadpool_locked, destroy_threadpool_wait] at hs
    split at hs
    · rename_i p heq
      split at heq <;> cases heq
      cases Option.some.inj hs; simp
    · rename_i p heq
      split at heq <;> cases heq
      cases Option.some.inj hs; simp
    · cases hs
  | destroy_wake =>
    simp only [World.step, destroy_threadpool_wait, hd, if_false] at hs
    split at hs
    · rename_i p heq
      split at heq <;> cases heq
      cases Option.some.inj hs; exact hd
    · cases Option.some.inj hs; exact hd
    · cases hs

theorem run_dont_accept : ∀ (ops : List Op) {w w2 : World}, w.run ops = some w2 →
    w.pool.dont_accept ≠ 0 → w2.pool.dont_accept ≠ 0
  | [], w, w2, hr, hd => by cases Option.some.inj hr; exact hd
  | op :: ops, w, w2, hr, hd => by
    simp only [World.run] at hr
    split at hr
    · cases hr
    · rename_i w1 hs
      exact run_dont_accept ops hr (step_dont_accept op hs hd)

/-! ### The flags take the values 0 and 1 -/

theorem dispatch_locked_flags {p p2 : threadpool} {heap h2 : Heap} {a : Nat}
    (h : dispatch_locked p heap a = .done (p2, h2)) :
    p2.shutdown = p.shutdown ∧ p2.dont_accept = p.dont_accept := by
  unfold dispatch_locked at h
  split at h
  · cases h
  split at h
  · split at h
    · cases h
    · cases h; exact ⟨rfl, rfl⟩
  split at h
  · cases h
  split at h
  · cases h
  split at h
  · cases h
  · cases h; exact ⟨rfl, rfl⟩

theorem do_work_locked_flags {p p2 : threadpool} {heap : Heap} {r : Option Nat}
    (h : do_work_locked p heap = .done (p2, r)) :
    p2.shutdown = p.shutdown ∧ p2.dont_accept = p.dont_accept := by
  unfold do_work_locked at h
  split at h
  · cases h
  split at h
  · cases h; exact ⟨rfl, rfl⟩
  split at h
  · cases h
  split at h
  · cases h
  split at h
  · cases h
  · cases h; exact ⟨rfl, rfl⟩

theorem step_flags {w w2 : World} (op : Op) (hs : w.step op = some w2)
    (hf : (w.pool.shutdown = 0 ∨ w.pool.shutdown = 1) ∧
      (w.pool.dont_accept = 0 ∨ w.pool.dont_accept = 1)) :
    (w2.pool.shutdown = 0 ∨ w2.pool.shutdown = 1) ∧
      (w2.pool.dont_accept = 0 ∨ w2.pool.dont_accept = 1) := by
  cases op with
  | dispatch routine arg m =>
    cases m with
    | none =>
      simp only [World.step, dispatch] at hs
      cases Option.some.inj hs; exact hf
    | some a =>
      simp only [World.step, dispatch] at hs
      split at hs
      · cases Option.some.inj hs; exact hf
      split at hs
      · rename_i p h heq
        obtain ⟨h1, h2⟩ := dispatch_locked_flags heq
        cases Option.some.inj hs
        simpa only [h1, h2] using hf
      · cases Option.some.inj hs; exact hf
      · cases hs
  | do_work =>
    simp only [World.step] at hs
    split at hs
    · rename_i p work heq
      obtain ⟨h1, h2⟩ := do_work_locked_flags heq
      cases Option.some.inj hs
      simpa only [h1, h2] using hf
    · rename_i p heq
      obtain ⟨h1, h2⟩ := do_work_locked_flags heq
      cases Option.some.inj hs
      simpa only [h1, h2] using hf
    · cases Option.some.inj hs; exact hf
    · cases hs
  | run a =>
    simp only [World.step] at hs
    split at hs
    · split at hs
      · cases hs
      · cases Option.some.inj hs; exact hf
    · cases Option.some.inj hs; exact hf
  | destroy =>
    simp only [World.step, destroy_threadpool_locked, destroy_threadpool_wait] at hs
    split at hs
    · rename_i p heq
      split at heq <;> cases heq
      cases Option.some.inj hs; simp
    · rename_i p heq
      split at heq <;> cases heq
      cases Option.some.inj hs; simpa using hf.1
    · cases hs
  | destroy_wake =>
    simp only [World.step, destroy_threadpool_wait] at hs
    split at hs
    · cases Option.some.inj hs; exact hf
    split at hs
    · rename_i p heq
      split at heq <;> cases heq
      cases Option.some.inj hs; simpa using hf.2
    · cases Option.some.inj hs; exact hf
    · cases hs

theorem run_flags : ∀ (ops : List Op) {w w2 : World}, w.run ops = some w2 →
    (w.pool.shutdown = 0 ∨ w.pool.shutdown = 1) ∧
      (w.pool.dont_accept = 0 ∨ w.pool.dont_accept = 1) →
    (w2.pool.shutdown = 0 ∨ w2.pool.shutdown = 1) ∧
      (w2.pool.dont_accept = 0 ∨ w2.pool.dont_accept = 1)
  | [], w, w2, hr, hf => by cases Option.some.inj hr; exact hf
  | op :: ops, w, w2, hr, hf => by
    simp only [World.run] at hr
    split at hr
    · cases hr
    · rename_i w1 hs
      exact run_flags ops hr (step_flags op hs hf)


theorem create_threadpool_flags {MAXT MAXW n cap : Int} {res : Bool} {pool : threadpool}
    (hc : create_threadpool MAXT MAXW n cap res = some pool) :
    pool.shutdown = 0 ∧ pool.dont_accept = 0 := by
  unfold create_threadpool at hc
  split_ifs at hc
  cases Option.some.inj hc
  exact ⟨rfl, rfl⟩

theorem Inv.drained {cap : Int} {w : World} {q : List Nat} (h : Inv cap w q)
    (h0 : w.pool.qsize = 0) : w.pool.qhead = none ∧ w.enqueued = w.handed := by
  have hlen : q.length = 0 := by
    have := h.size
    omega
  have hq : q = [] := List.length_eq_zero.mp hlen
  have hseg := h.seg
  have hhist := h.hist
  rw [hq] at hseg hhist
  exact ⟨hseg, by simpa using hhist⟩

/-! ## Claims about threadpool.c -/

/-- C1. From a freshly created pool, after every finite schedule of steps of
`dispatch`, `do_work` and `destroy_threadpool` (none of which runs into
undefined behaviour), the jobs handed to workers are an initial segment of the
jobs enqueued, in the same order: the `i`-th job handed out is the `i`-th job
enqueued, and the jobs enqueued and not yet handed out are exactly the nodes
reachable from `qhead`, in order. This also holds after the queue ran empty and
was refilled, although the dequeue leaves `qtail` dangling. -/
theorem work_queue_fifo (MAXT_IN_POOL MAXW_IN_QUEUE n cap : Int) (resources : Bool)
    (pool : threadpool) (ops : List Op)
    (hcreate : create_threadpool MAXT_IN_POOL MAXW_IN_QUEUE n cap resources = some pool)
    (hint : cap ≤ INT_MAX) :
    ∃ w q, (World.init pool).run ops = some w ∧
      IsSeg w.heap w.pool.qhead q ∧
      w.enqueued = w.handed ++ q.map (job_at w.heap) ∧
      w.handed <+: w.enqueued ∧
      ∀ i, i < w.handed.length → w.handed[i]? = w.enqueued[i]? := by
  obtain ⟨w, q, hr, hi⟩ := Inv.run ops (Inv.init hcreate hint)
  refine ⟨w, q, hr, hi.seg, hi.hist, ⟨_, hi.hist.symm⟩, fun i hlt => ?_⟩
  rw [hi.hist, List.getElem?_append_left hlt]

/-- Witness for C1: a pool of capacity 3 is filled and emptied, the node is
freed while `qtail` still points to it, and the pool is refilled with a node at
the same address. -/
theorem work_queue_fifo_witness :
    ∃ w q, (World.init
        { num_threads := 2, qsize := 0, max_qsize := 3, qhead := none, qtail := none,
          shutdown := 0, dont_accept := 0 }).run
        [.dispatch 1 10 (some 0), .do_work, .run 0, .dispatch 2 20 (some 0),
         .dispatch 3 30 (some 1), .do_work, .do_work] = some w ∧
      IsSeg w.heap w.pool.qhead q ∧
      w.enqueued = w.handed ++ q.map (job_at w.heap) ∧
      w.handed <+: w.enqueued ∧
      ∀ i, i < w.handed.length → w.handed[i]? = w.enqueued[i]? :=
  work_queue_fifo 200 200 2 3 true _ _ (by decide) (by decide)

/-- C2. In every state reached from `create_threadpool(n, cap)` by a schedule
of `dispatch`, `do_work` and `destroy_threadpool` steps, `0 ≤ qsize ≤ max_qsize`
and `max_qsize = cap`; the locked section of `dispatch` appends only when
`qsize < max_qsize`, and the locked section of `do_work` takes a job only when
`qsize > 0`. -/
theorem qsize_bounds (MAXT_IN_POOL MAXW_IN_QUEUE n cap : Int) (resources : Bool)
    (pool : threadpool) (ops : List Op)
    (hcreate : create_threadpool MAXT_IN_POOL MAXW_IN_QUEUE n cap resources = some pool)
    (hint : cap ≤ INT_MAX) :
    ∃ w, (World.init pool).run ops = some w ∧
      0 ≤ w.pool.qsize ∧ w.pool.qsize ≤ w.pool.max_qsize ∧ w.pool.max_qsize = cap ∧
      (∀ heap new_work r, dispatch_locked w.pool heap new_work = .done r →
        w.pool.qsize < w.pool.max_qsize) ∧
      (∀ p work, do_work_locked w.pool w.heap = .done (p, some work) → 0 < w.pool.qsize) := by
  obtain ⟨w, q, hr, hi⟩ := Inv.run ops (Inv.init hcreate hint)
  have h0 := hi.size_nonneg
  have hle : w.pool.qsize ≤ w.pool.max_qsize := by rw [hi.cap_eq]; exact hi.le_cap
  refine ⟨w, hr, h0, hle, hi.cap_eq, ?_, ?_⟩
  · intro heap new_work r hd
    unfold dispatch_locked at hd
    split at hd
    · cases hd
    · rename_i hg
      have hne : w.pool.qsize ≠ w.pool.max_qsize := fun e => hg (Or.inr e)
      omega
  · intro p work hd
    unfold do_work_locked at hd
    split at hd
    · cases hd
    · rename_i hg
      split at hd
      · cases hd
      · rename_i hs
        have hs0 : w.pool.shutdown = 0 := by
          by_contra hne; exact hs hne
        have hne : w.pool.qsize ≠ 0 := fun e => hg ⟨e, hs0⟩
        omega

/-- Witness for C2: the bounds in a pool of capacity 2 after three calls of
`dispatch`, a dequeue and the entry of `destroy_threadpool`. -/
theorem qsize_bounds_witness :
    ∃ w, (World.init
        { num_threads := 1, qsize := 0, max_qsize := 2, qhead := none, qtail := none,
          shutdown := 0, dont_accept := 0 }).run
        [.dispatch 1 10 (some 4), .dispatch 2 20 (some 5), .dispatch 3 30 (some 6), .do_work,
         .destroy] = some w ∧
      0 ≤ w.pool.qsize ∧ w.pool.qsize ≤ w.pool.max_qsize ∧ w.pool.max_qsize = 2 ∧
      (∀ heap new_work r, dispatch_locked w.pool heap new_work = .done r →
        w.pool.qsize < w.pool.max_qsize) ∧
      (∀ p work, do_work_locked w.pool w.heap = .done (p, some work) → 0 < w.pool.qsize) :=
  qsize_bounds 200 200 1 2 true _ _ (by decide) (by decide)

/-- C3 as stated fails: in the state that `destroy_threadpool` leaves on a
fresh pool (`dont_accept = 1`), the call `dispatch(pool, 7, 9)` with a
successful `malloc` does not return to its caller. -/
theorem dispatch_after_destroy_does_not_return :
    ∃ pool w, create_threadpool 200 200 2 3 true = some pool ∧
      (World.init pool).run [.destroy] = some w ∧ w.pool.dont_accept ≠ 0 ∧
      ¬ ∃ r, dispatch w.pool w.heap 7 9 (some 0) = .done r := by
  refine ⟨_, _, rfl, rfl, by decide, ?_⟩
  rintro ⟨r, hr⟩
  simp [dispatch, dispatch_locked, World.init] at hr

/-- C3, amended. Once `dont_accept` is set it stays set along every schedule,
and in every later state a call of `dispatch` whose `malloc` succeeded is
suspended in `pthread_cond_wait` instead of returning: the job is not
appended and the pool (`qhead`, `qtail`, `qsize`) is as before the call; only
the node allocated for the job has been written. -/
theorem dispatch_not_accepting_waits (w w2 : World) (ops : List Op)
    (routine arg new_work : Nat) (hd : w.pool.dont_accept ≠ 0)
    (hrun : w.run ops = some w2) :
    w2.pool.dont_accept ≠ 0 ∧
      dispatch w2.pool w2.heap routine arg (some new_work) =
        .waits (w2.pool,
          w2.heap.set new_work { routine := routine, arg := arg, next := none }) ∧
      w2.step (.dispatch routine arg (some new_work)) = some w2 := by
  have hd2 := run_dont_accept ops hrun hd
  refine ⟨hd2, by simp [dispatch, dispatch_locked, hd2], ?_⟩
  simp only [World.step, dispatch, dispatch_locked, hd2, ne_eq, not_false_eq_true, true_or,
    if_true]
  split <;> rfl

/-- Witness for C3, amended: a job is queued, `destroy_threadpool` is entered,
a worker takes the job, and a later `dispatch` waits. -/
theorem dispatch_not_accepting_waits_witness :
    ({ pool := { num_threads := 1, qsize := 1, max_qsize := 2, qhead := some 0,
                 qtail := some 0, shutdown := 0, dont_accept := 1 },
       heap := fun a => if a = 0 then some { routine := 1, arg := 10, next := none } else none,
       held := [], enqueued := [(1, 10)], handed := [] } : World).pool.dont_accept ≠ 0 ∧
    ∃ w2 : World, w2.pool.dont_accept ≠ 0 ∧
      dispatch w2.pool w2.heap 7 9 (some 3) =
        .waits (w2.pool, w2.heap.set 3 { routine := 7, arg := 9, next := none }) ∧
      w2.step (.dispatch 7 9 (some 3)) = some w2 :=
  ⟨by decide, _, dispatch_not_accepting_waits
    { pool := { num_threads := 1, qsize := 1, max_qsize := 2, qhead := some 0,
                qtail := some 0, shutdown := 0, dont_accept := 1 },
      heap := fun a => if a = 0 then some { routine := 1, arg := 10, next := none } else none,
      held := [], enqueued := [(1, 10)], handed := [] } _ [.do_work] 7 9 3 (by decide) rfl⟩

/-! ## Lemmas about server.c -/

/-! ### The response head -/

theorem length_lt_of_append {a b : List Char} {n : Nat} (h : (a ++ b).length < n) :
    a.length < n := by
  rw [List.length_append] at h
  exact Nat.lt_of_le_of_lt (Nat.le_add_right _ _) h

theorem Buf.snprintf_fits {size : Nat} {t s : List Char} (hfit : (t ++ s).length < size) :
    Buf.snprintf size { text := t, len := t.length } s =
      some { text := t ++ s, len := (t ++ s).length } := by
  rw [List.length_append] at hfit
  have h1 : t.length < size := by omega
  have h2 : s.take (size - t.length - 1) = s := List.take_of_length_le (by omega)
  unfold Buf.snprintf
  simp only [h1, if_true, h2, List.length_append]

theorem Buf.snprintf_empty {size : Nat} {s : List Char} (hfit : s.length < size) :
    Buf.snprintf size { text := [], len := 0 } s = some { text := s, len := s.length } := by
  have := @Buf.snprintf_fits size [] s (by simpa using hfit)
  simpa using this

theorem Buf.snprintf_opt_fits {size : Nat} {t : List Char} {x : Option (List Char)}
    (hfit : (t ++ opt_text x).length < size) :
    Buf.snprintf_opt size { text := t, len := t.length } x =
      some { text := t ++ opt_text x, len := (t ++ opt_text x).length } := by
  cases x with
  | none => simp [Buf.snprintf_opt, opt_text]
  | some s => exact Buf.snprintf_fits hfit

theorem send_bytes_text {t : List Char} {size : Nat} (hsize : t.length ≤ size) :
    send_bytes { text := t, size := size } (t.length : Int) = some t := by
  simp [send_bytes, hsize]

theorem snprintf_chain_fits (s0 s3 s5 : List Char) (l t m : Option (List Char))
    (K : List Char → Option (List Event))
    (hfit : (s0 ++ opt_text l ++ opt_text t ++ s3 ++ opt_text m ++ s5).length < 8192) :
    ((Buf.snprintf 8192 { text := [], len := 0 } s0).bind fun b0 =>
      (b0.snprintf_opt 8192 l).bind fun b1 =>
      (b1.snprintf_opt 8192 t).bind fun b2 =>
      (b2.snprintf 8192 s3).bind fun b3 =>
      (b3.snprintf_opt 8192 m).bind fun b4 =>
      (b4.snprintf 8192 s5).bind fun b5 =>
      (send_bytes { text := b5.text, size := 8192 } b5.len).bind K)
    = K (s0 ++ opt_text l ++ opt_text t ++ s3 ++ opt_text m ++ s5) := by
  have h4 := length_lt_of_append hfit
  have h3 := length_lt_of_append h4
  have h2 := length_lt_of_append h3
  have h1 := length_lt_of_append h2
  have h0 := length_lt_of_append h1
  rw [Buf.snprintf_empty h0]
  simp only [Option.some_bind]
  rw [Buf.snprintf_opt_fits h1]
  simp only [Option.some_bind]
  rw [Buf.snprintf_opt_fits h2]
  simp only [Option.some_bind]
  rw [Buf.snprintf_fits h3]
  simp only [Option.some_bind]
  rw [Buf.snprintf_opt_fits h4]
  simp only [Option.some_bind]
  rw [Buf.snprintf_fits hfit]
  simp only [Option.some_bind]
  rw [send_bytes_text (Nat.le_of_lt hfit)]
  simp only [Option.some_bind]

theorem send_response_none (env : Env) (status status_msg : List Char)
    (content_type : Option (List Char)) (content_length : Int)
    (location : Option (List Char)) (last_modified : Int)
    (hfit : (response_head (env.rfc1123 env.now) status status_msg location content_type
      content_length none).length < 8192) :
    send_response env status status_msg content_type none content_length location last_modified
      = some [Event.send (response_head (env.rfc1123 env.now) status status_msg location
          content_type content_length none)] := by
  have hm : (if (none : Option Obj).isSome ∧ last_modified > 0 then
        some ((str "Last-Modified: ") ++ env.rfc1123 last_modified ++ str "\r\n") else none)
      = (none : Option (List Char)) := if_neg (fun h => by cases h.1)
  unfold send_response
  unfold response_head at hfit ⊢
  rw [hm]
  exact snprintf_chain_fits _ _ _ _ _ none (fun head => some [Event.send head]) hfit

theorem send_response_some (env : Env) (status status_msg : List Char)
    (content_type : Option (List Char)) (body : Obj) (content_length : Int)
    (location : Option (List Char)) (last_modified : Int)
    (hfit : (response_head (env.rfc1123 env.now) status status_msg location content_type
      content_length
      (if last_modified > 0 then some (env.rfc1123 last_modified) else none)).length < 8192) :
    send_response env status status_msg content_type (some body) content_length location
        last_modified
      = (send_bytes body content_length).map fun bytes =>
          [Event.send (response_head (env.rfc1123 env.now) status status_msg location
            content_type content_length
            (if last_modified > 0 then some (env.rfc1123 last_modified) else none)),
           Event.send bytes] := by
  have hm : (if (some body).isSome ∧ last_modified > 0 then
        some ((str "Last-Modified: ") ++ env.rfc1123 last_modified ++ str "\r\n") else none)
      = (if last_modified > 0 then some (env.rfc1123 last_modified) else none).map
          fun d => (str "Last-Modified: ") ++ d ++ str "\r\n" := by
    by_cases h : last_modified > 0
    · rw [if_pos ⟨rfl, h⟩, if_pos h]; rfl
    · rw [if_neg (fun h2 => h h2.2), if_neg h]; rfl
  unfold send_response
  unfold response_head at hfit ⊢
  rw [hm]
  exact snprintf_chain_fits _ _ _ _ _ _
    (fun head => (send_bytes body content_length).map fun bytes =>
      [Event.send head, Event.send bytes]) hfit

/-! ### Tokens and `sscanf` -/

theorem dropWhile_head_not {p : Char → Bool} : ∀ (l : List Char) {x : Char} {xs : List Char},
    l.dropWhile p = x :: xs → p x = false
  | [], _, _, h => by simp at h
  | c :: cs, x, xs, h => by
    by_cases hc : p c = true
    · rw [List.dropWhile_cons_of_pos hc] at h
      exact dropWhile_head_not cs h
    · rw [List.dropWhile_cons_of_neg hc] at h
      cases h
      simpa using hc

theorem drop_length_takeWhile {p : Char → Bool} : ∀ (l : List Char),
    l.drop (l.takeWhile p).length = l.dropWhile p
  | [] => rfl
  | c :: cs => by
    by_cases hc : p c = true
    · rw [List.takeWhile_cons_of_pos hc, List.dropWhile_cons_of_pos hc]
      exact drop_length_takeWhile cs
    · rw [List.takeWhile_cons_of_neg hc, List.dropWhile_cons_of_neg hc]
      rfl

theorem tokens_eq : ∀ (s : List Char),
    tokens s =
      if s.dropWhile isspace = [] then []
      else (s.dropWhile isspace).takeWhile (fun c => !isspace c) ::
        tokens ((s.dropWhile isspace).dropWhile (fun c => !isspace c))
  | [] => by simp [tokens]
  | c :: cs => by
    have ih := tokens_eq cs
    by_cases hc : isspace c = true
    · rw [tokens, if_pos hc, List.dropWhile_cons_of_pos hc]
      exact ih
    · have hc2 : (fun c => !isspace c) c = true := by simpa using hc
      rw [List.dropWhile_cons_of_neg hc, if_neg (List.cons_ne_nil c cs),
        List.takeWhile_cons_of_pos (p := fun c => !isspace c) hc2,
        List.dropWhile_cons_of_pos (p := fun c => !isspace c) hc2, tokens, if_neg hc]
      cases cs with
      | nil => simp [tokens]
      | cons d ds =>
        by_cases hd : isspace d = true
        · have hd2 : ¬ (fun c => !isspace c) d = true := by simpa using hd
          simp only [List.head?_cons, Option.map_some', Option.getD_some, hd, if_true]
          rw [List.takeWhile_cons_of_neg (p := fun c => !isspace c) hd2,
            List.dropWhile_cons_of_neg (p := fun c => !isspace c) hd2]
        · simp only [List.head?_cons, Option.map_some', Option.getD_some, hd]
          rw [List.dropWhile_cons_of_neg hd, if_neg (List.cons_ne_nil d ds)] at ih
          rw [ih]
          simp

theorem scan_s_some {w : Nat} {s t : List Char} {ts : List (List Char)}
    (h : tokens s = t :: ts) (hw : t.length ≤ w) :
    ∃ r, scan_s w s = some (t, r) ∧ tokens r = ts := by
  rw [tokens_eq] at h
  by_cases h1 : s.dropWhile isspace = []
  · rw [if_pos h1] at h; cases h
  · rw [if_neg h1] at h
    obtain ⟨ht, hts⟩ := List.cons.inj h
    have hne : t ≠ [] := by
      cases hs : s.dropWhile isspace with
      | nil => exact absurd hs h1
      | cons x xs =>
        have hx := dropWhile_head_not s hs
        rw [hs] at ht
        have hx2 : (fun c => !isspace c) x = true := by simpa using hx
        rw [List.takeWhile_cons_of_pos (p := fun c => !isspace c) hx2] at ht
        rw [← ht]; simp
    refine ⟨(s.dropWhile isspace).dropWhile (fun c => !isspace c), ?_, hts⟩
    unfold scan_s
    simp only [ht, List.take_of_length_le hw, hne, if_false]
    rw [← drop_length_takeWhile (s.dropWhile isspace), ht]

theorem tokens_space : ∀ (ws : List Char), (∀ c ∈ ws, isspace c = true) → tokens ws = []
  | [], _ => rfl
  | c :: cs, h => by
    rw [tokens, if_pos (h c (List.mem_cons_self _ _))]
    exact tokens_space cs fun d hd => h d (List.mem_cons_of_mem _ hd)

theorem tokens_append_space (ws : List Char) (hws : ∀ c ∈ ws, isspace c = true) :
    ∀ (l : List Char), tokens (l ++ ws) = tokens l
  | [] => by simpa [tokens] using tokens_space ws hws
  | c :: cs => by
    have ih := tokens_append_space ws hws cs
    have hhead : ((cs ++ ws).head?.map isspace).getD true = (cs.head?.map isspace).getD true := by
      cases cs with
      | cons d ds => rfl
      | nil =>
        cases ws with
        | nil => rfl
        | cons x xs => simp [hws x (List.mem_cons_self _ _)]
    rw [List.cons_append, tokens, tokens, hhead, ih]

theorem tokens_length_le : ∀ (s t : List Char), t ∈ tokens s → t.length ≤ s.length
  | [], t, h => by simp [tokens] at h
  | c :: cs, t, h => by
    have ih := tokens_length_le cs
    rw [tokens] at h
    split at h
    · exact Nat.le_succ_of_le (ih t h)
    · split at h
      · rcases List.mem_cons.1 h with rfl | h
        · simp
        · exact Nat.le_succ_of_le (ih t h)
      · split at h
        · rename_i t2 ts heq
          rcases List.mem_cons.1 h with rfl | h
          · have := ih t2 (by rw [heq]; exact List.mem_cons_self _ _)
            simpa using this
          · exact Nat.le_succ_of_le (ih t (by rw [heq]; exact List.mem_cons_of_mem _ h))
        · have ht : t = [c] := by simpa using h
          subst ht; simp

theorem tokens_token_space : ∀ (t : List Char) (w : Char) (rest : List Char), t ≠ [] →
    (∀ c ∈ t, isspace c = false) → isspace w = true →
    tokens (t ++ w :: rest) = t :: tokens rest
  | [], _, _, h, _, _ => absurd rfl h
  | [c], w, rest, _, ht, hw => by
    have hc : ¬ isspace c = true := by simp [ht c (List.mem_cons_self _ _)]
    rw [List.singleton_append, tokens, if_neg hc]
    simp only [List.head?_cons, Option.map_some', Option.getD_some, hw, if_true]
    rw [tokens, if_pos hw]
  | c :: d :: t, w, rest, _, ht, hw => by
    have hc : ¬ isspace c = true := by simp [ht c (List.mem_cons_self _ _)]
    have hd : ¬ isspace d = true := by simp [ht d (by simp)]
    have ih := tokens_token_space (d :: t) w rest (by simp)
      (fun x hx => ht x (List.mem_cons_of_mem _ hx)) hw
    rw [List.cons_append, tokens, if_neg hc]
    simp only [List.cons_append, List.head?_cons, Option.map_some', Option.getD_some, hd]
    rw [List.cons_append] at ih
    rw [ih]
    simp

theorem tokens_token : ∀ (t : List Char), t ≠ [] → (∀ c ∈ t, isspace c = false) →
    tokens t = [t] := by
  intro t hne ht
  have h := tokens_token_space t ' ' [] hne ht (by decide)
  have h2 := tokens_append_space [' '] (by simp; decide) t
  rw [h2] at h
  simpa [tokens] using h

/-! ### Reading the request line -/

theorem not_crlf_tail {c : Char} {l : List Char} (h : ¬ ['\r', '\n'] <:+: c :: l) :
    ¬ ['\r', '\n'] <:+: l ∧ (c = '\r' → l.head? ≠ some '\n') := by
  refine ⟨fun hi => h (List.infix_cons hi), ?_⟩
  rintro rfl hhead
  cases l with
  | nil => simp at hhead
  | cons d ds =>
    have hd : d = '\n' := by simpa using hhead
    subst hd
    exact h (List.IsPrefix.isInfix ⟨ds, rfl⟩)

theorem read_request_line_crlf : ∀ (line : List Char) (remaining : Nat) (last : Char)
    (rest : List Char), ¬ ['\r', '\n'] <:+: line → (last = '\r' → line.head? ≠ some '\n') →
    line.length + 2 ≤ remaining →
    read_request_line remaining last (line ++ '\r' :: '\n' :: rest) = some (line ++ ['\r', '\n'])
  | [], remaining, last, rest, _, _, hlen => by
    obtain ⟨r, rfl⟩ : ∃ r, remaining = r + 2 := ⟨remaining - 2, by simp at hlen; omega⟩
    simp [read_request_line]
  | c :: l, remaining, last, rest, hno, hlast, hlen => by
    obtain ⟨r, rfl⟩ : ∃ r, remaining = r + 1 := ⟨remaining - 1, by simp at hlen; omega⟩
    have hcond : ¬ (last = '\r' ∧ c = '\n') := fun h => hlast h.1 (by simp [h.2])
    obtain ⟨hno2, hlast2⟩ := not_crlf_tail hno
    have ih := read_request_line_crlf l r c rest hno2 hlast2 (by simp at hlen; omega)
    rw [List.cons_append, read_request_line, if_neg hcond, ih]
    rfl

theorem read_request_line_eof : ∀ (input : List Char) (remaining : Nat) (last : Char),
    ¬ ['\r', '\n'] <:+: input → (last = '\r' → input.head? ≠ some '\n') →
    input.length < remaining → read_request_line remaining last input = none
  | [], remaining, last, _, _, hlen => by
    obtain ⟨r, rfl⟩ : ∃ r, remaining = r + 1 := ⟨remaining - 1, by simp at hlen; omega⟩
    rfl
  | c :: l, remaining, last, hno, hlast, hlen => by
    obtain ⟨r, rfl⟩ : ∃ r, remaining = r + 1 := ⟨remaining - 1, by simp at hlen; omega⟩
    have hcond : ¬ (last = '\r' ∧ c = '\n') := fun h => hlast h.1 (by simp [h.2])
    obtain ⟨hno2, hlast2⟩ := not_crlf_tail hno
    have ih := read_request_line_eof l r c hno2 hlast2 (by simp at hlen; omega)
    rw [read_request_line, if_neg hcond, ih]
    rfl

theorem read_request_line_full : ∀ (remaining : Nat) (input : List Char) (last : Char),
    ¬ ['\r', '\n'] <:+: input.take remaining → (last = '\r' → input.head? ≠ some '\n') →
    remaining ≤ input.length → read_request_line remaining last input = some (input.take remaining)
  | 0, _, _, _, _, _ => by simp [read_request_line]
  | r + 1, [], _, _, _, hlen => by simp at hlen
  | r + 1, c :: l, last, hno, hlast, hlen => by
    have hcond : ¬ (last = '\r' ∧ c = '\n') := fun h => hlast h.1 (by simp [h.2])
    rw [List.take_succ_cons] at hno
    obtain ⟨hno2, hlast2⟩ := not_crlf_tail hno
    cases r with
    | zero => simp [read_request_line, hcond]
    | succ r2 =>
      have hlast3 : c = '\r' → l.head? ≠ some '\n' := by
        intro hc hh
        apply hlast2 hc
        cases l with
        | nil => simp at hh
        | cons d ds => simpa using hh
      have ih := read_request_line_full (r2 + 1) l c hno2 hlast3 (by simp at hlen; omega)
      rw [read_request_line, if_neg hcond, ih]
      rfl

theorem c_string_eq {l : List Char} (h : '\x00' ∉ l) : c_string l = l := by
  unfold c_string
  rw [List.takeWhile_eq_self_iff]
  intro x hx
  simpa using fun e : x = '\x00' => h (e ▸ hx)

/-! ### Error responses -/

theorem fmt_ld_length (k : Nat) (h : k < 10000) : (fmt_ld (k : Int)).length ≤ 4 :=
  Nat.repr_length k 4 (by decide) (by simpa using h)

theorem error_body_length (c : Int) : (error_body c).length ≤ 136 := by
  unfold error_body
  split_ifs <;> decide

theorem response_head_length (date status status_msg : List Char)
    (location content_type : Option (List Char)) (content_length : Int)
    (last_modified : Option (List Char)) :
    (response_head date status status_msg location content_type content_length
      last_modified).length
      = 82 + status.length + status_msg.length + date.length +
        (opt_text (location.map fun l => str "Location: " ++ l ++ str "\r\n")).length +
        (opt_text (content_type.map fun t => str "Content-Type: " ++ t ++ str "\r\n")).length +
        (fmt_ld content_length).length +
        (opt_text (last_modified.map fun d => str "Last-Modified: " ++ d ++ str "\r\n")).length := by
  unfold response_head
  simp only [List.length_append]
  have e1 : (str "HTTP/1.0 ").length = 9 := by decide
  have e2 : (str " ").length = 1 := by decide
  have e3 : (str "\r\n").length = 2 := by decide
  have e4 : (str "Server: webserver/1.0\r\n").length = 23 := by decide
  have e5 : (str "Date: ").length = 6 := by decide
  have e6 : (str "Content-Length: ").length = 16 := by decide
  have e7 : (str "Connection: close\r\n\r\n").length = 21 := by decide
  rw [e1, e2, e3, e4, e5, e6, e7]
  omega

theorem send_error_response_eq (env : Env) (c : Int) (msg : List Char)
    (hdate : (env.rfc1123 env.now).length ≤ 127) (hmsg : msg.length ≤ 127) :
    send_error_response env c msg =
      some [Event.send (response_head (env.rfc1123 env.now)
              (if c = 302 then str "302" else str "400") msg none (some (str "text/html"))
              (error_body c).length none),
            Event.send (error_body c)] := by
  have hst : (if c = 302 then str "302" else str "400").length = 3 := by
    split <;> decide
  have hb := error_body_length c
  have hd := fmt_ld_length (error_body c).length (by omega)
  have hct : (str "Content-Type: " ++ str "text/html" ++ str "\r\n").length = 25 := by decide
  have h0 : ¬ ((0 : Int) > 0) := by decide
  unfold send_error_response
  rw [send_response_some]
  · rw [if_neg h0, send_bytes_text (Nat.le_succ _)]
    rfl
  · rw [if_neg h0, response_head_length, hst]
    simp only [Option.map_some', Option.map_none', opt_text, hct, List.length_nil]
    omega

/-! ### Parsing the request line -/

theorem sscanf_request_three {req m p v : List Char} {ts : List (List Char)}
    (h : tokens req = m :: p :: v :: ts) (hm : m.length ≤ 9) (hp : p.length ≤ 4095)
    (hv : v.length ≤ 9) :
    sscanf_request req = { count := 3, method := m, path := p, protocol := v } := by
  obtain ⟨r1, h1, t1⟩ := scan_s_some h hm
  obtain ⟨r2, h2, t2⟩ := scan_s_some t1 hp
  obtain ⟨r3, h3, _⟩ := scan_s_some t2 hv
  simp [sscanf_request, h1, h2, h3]

theorem crlf_space : ∀ c ∈ ['\r', '\n'], isspace c = true := by decide

theorem read_line_ok {env : Env} {line rest : List Char}
    (hinput : env.input = line ++ '\r' :: '\n' :: rest)
    (hcrlf : ¬ ['\r', '\n'] <:+: line) (hlen : line.length + 2 ≤ MAX_REQUEST_SIZE)
    (hfirst : env.before = '\r' → line.head? ≠ some '\n') :
    read_request_line MAX_REQUEST_SIZE env.before env.input = some (line ++ ['\r', '\n']) := by
  rw [hinput]
  exact read_request_line_crlf line _ _ rest hcrlf hfirst hlen

theorem c_string_line {line : List Char} (hnul : '\x00' ∉ line) :
    c_string (line ++ ['\r', '\n']) = line ++ ['\r', '\n'] :=
  c_string_eq (by simpa using hnul)

theorem not_crlf_of_not_mem {l : List Char} (h : '\n' ∉ l) : ¬ ['\r', '\n'] <:+: l :=
  fun hi => h (hi.subset (by simp))

theorem read_line_take {env : Env} {line rest : List Char}
    (hinput : env.input = line ++ '\r' :: '\n' :: rest)
    (hnl : '\n' ∉ line) (hlen : line.length ≤ MAX_REQUEST_SIZE) :
    read_request_line MAX_REQUEST_SIZE env.before env.input =
      some ((line ++ ['\r', '\n']).take MAX_REQUEST_SIZE) := by
  have hfirst : env.before = '\r' → line.head? ≠ some '\n' := by
    intro _ hh
    cases line with
    | nil => simp at hh
    | cons c l =>
      have hc : c = '\n' := by simpa using hh
      exact hnl (hc ▸ List.mem_cons_self _ _)
  by_cases h2 : line.length + 2 ≤ MAX_REQUEST_SIZE
  · rw [read_line_ok hinput (not_crlf_of_not_mem hnl) h2 hfirst,
      List.take_of_length_le (by simpa using h2)]
  · have hle : MAX_REQUEST_SIZE ≤ (line ++ ['\r']).length := by
      simp only [List.length_append, List.length_singleton]; omega
    have e1 : line ++ '\r' :: '\n' :: rest = (line ++ ['\r']) ++ '\n' :: rest := by simp
    have e2 : line ++ ['\r', '\n'] = (line ++ ['\r']) ++ ['\n'] := by simp
    have ht1 : (line ++ '\r' :: '\n' :: rest).take MAX_REQUEST_SIZE =
        (line ++ ['\r']).take MAX_REQUEST_SIZE := by
      rw [e1, List.take_append_of_le_length hle]
    have ht2 : (line ++ ['\r', '\n']).take MAX_REQUEST_SIZE =
        (line ++ ['\r']).take MAX_REQUEST_SIZE := by
      rw [e2, List.take_append_of_le_length hle]
    have hnl2 : '\n' ∉ (line ++ ['\r']).take MAX_REQUEST_SIZE := by
      intro hm
      have hm2 := List.mem_of_mem_take hm
      simp only [List.mem_append, List.mem_singleton] at hm2
      rcases hm2 with hm2 | hm2
      · exact hnl hm2
      · exact absurd hm2 (by decide)
    have hhead : env.before = '\r' → (line ++ '\r' :: '\n' :: rest).head? ≠ some '\n' := by
      intro hb hh
      cases line with
      | nil => simp at hh
      | cons c l => exact hfirst hb hh
    have := read_request_line_full MAX_REQUEST_SIZE (line ++ '\r' :: '\n' :: rest) env.before
      (by rw [ht1]; exact not_crlf_of_not_mem hnl2) hhead
      (by simp only [List.length_append, List.length_cons]; omega)
    rw [hinput, this, ht1, ht2]

theorem take_line_crlf {line : List Char} (hlen : line.length ≤ MAX_REQUEST_SIZE) :
    (line ++ ['\r', '\n']).take MAX_REQUEST_SIZE =
      line ++ (['\r', '\n'] : List Char).take (MAX_REQUEST_SIZE - line.length) := by
  rw [List.take_append_eq_append_take, List.take_of_length_le hlen]

theorem long_path_length : long_path.length = 3988 := by
  rw [long_path, List.length_cons, List.length_replicate]

theorem long_path_mem {c : Char} (h : c ∈ long_path) : c = '/' ∨ c = 'a' := by
  rw [long_path, List.mem_cons] at h
  exact h.imp id fun hm => (List.mem_replicate.1 hm).2

/-- When `body` is `NULL`, `send_response` ignores `last_modified`. -/
theorem send_response_null_body_ignores_last_modified (env : Env)
    (status status_msg : List Char) (content_type : Option (List Char)) (content_length : Int)
    (location : Option (List Char)) (last_modified : Int) :
    send_response env status status_msg content_type none content_length location last_modified
      = send_response env status status_msg content_type none content_length location 0 := by
  have h1 : ¬ ((none : Option Obj).isSome = true ∧ last_modified > 0) := fun h => by cases h.1
  have h2 : ¬ ((none : Option Obj).isSome = true ∧ (0 : Int) > 0) := fun h => by cases h.1
  unfold send_response
  rw [if_neg h1, if_neg h2]

/-! ### Directory listings -/

theorem listing_loop_fits (request_path : List Char) : ∀ (entries : List (List Char))
    (t : List Char), (t ++ listing_items request_path entries).length < 8192 →
    listing_loop request_path entries { text := t, len := t.length } =
      some { text := t ++ listing_items request_path entries,
             len := (t ++ listing_items request_path entries).length }
  | [], t, _ => by simp [listing_loop, listing_items]
  | d_name :: rest, t, h => by
    by_cases hd : d_name = str "." ∨ d_name = str ".."
    · rw [listing_items, if_pos hd] at h ⊢
      rw [listing_loop, if_pos hd]
      exact listing_loop_fits request_path rest t h
    · rw [listing_items, if_neg hd] at h ⊢
      rw [← List.append_assoc] at h ⊢
      rw [listing_loop, if_neg hd, Buf.snprintf_fits (length_lt_of_append h)]
      exact listing_loop_fits request_path rest _ h

theorem listing_items_eq (request_path : List Char) : ∀ (entries : List (List Char)),
    listing_items request_path entries =
      ((entries.filter fun e => decide (e ≠ str ".") && decide (e ≠ str "..")).map
        (listing_item request_path)).flatten
  | [] => rfl
  | d_name :: rest => by
    have ih := listing_items_eq request_path rest
    by_cases hd : d_name = str "." ∨ d_name = str ".."
    · have hf : ¬ ((fun e => decide (e ≠ str ".") && decide (e ≠ str "..")) d_name = true) := by
        rcases hd with h | h <;> simp [h]
      rw [listing_items, if_pos hd, List.filter_cons_of_neg
        (p := fun e => decide (e ≠ str ".") && decide (e ≠ str "..")) hf, ih]
    · have hf : (fun e => decide (e ≠ str ".") && decide (e ≠ str "..")) d_name = true := by
        simpa [not_or] using hd
      rw [listing_items, if_neg hd, List.filter_cons_of_pos
        (p := fun e => decide (e ≠ str ".") && decide (e ≠ str "..")) hf, ih]
      simp

theorem Buf.snprintf_len {size : Nat} {b b2 : Buf} {s : List Char}
    (h : b.snprintf size s = some b2) : b2.len = b.len + s.length := by
  unfold Buf.snprintf at h
  split at h
  · cases h; rfl
  · split at h
    · cases h; rfl
    · cases h

theorem listing_loop_len (request_path : List Char) : ∀ (entries : List (List Char))
    (b b2 : Buf), listing_loop request_path entries b = some b2 →
    b2.len = b.len + (listing_items request_path entries).length
  | [], b, b2, h => by
    cases h; simp [listing_items]
  | d_name :: rest, b, b2, h => by
    by_cases hd : d_name = str "." ∨ d_name = str ".."
    · rw [listing_loop, if_pos hd] at h
      rw [listing_items, if_pos hd]
      exact listing_loop_len request_path rest b b2 h
    · rw [listing_loop, if_neg hd] at h
      rw [listing_items, if_neg hd]
      cases hs : b.snprintf 8192 (listing_item request_path d_name) with
      | none => rw [hs] at h; cases h
      | some b1 =>
        rw [hs] at h
        have h1 := Buf.snprintf_len hs
        have h2 := listing_loop_len request_path rest b1 b2 h
        rw [h2, h1, List.length_append]
        omega

theorem listing_overflow (env : Env) (dir_path request_path : List Char)
    (entries : List (List Char)) (hopen : env.opendir dir_path = some entries)
    (hbig : 8192 < (str "<html><body><h1>Directory Listing</h1><ul>" ++
      listing_items request_path entries).length) :
    send_directory_listing env dir_path request_path = none := by
  unfold send_directory_listing
  rw [hopen]
  simp only []
  cases hl : listing_loop request_path entries
      { text := str "<html><body><h1>Directory Listing</h1><ul>",
        len := (str "<html><body><h1>Directory Listing</h1><ul>").length } with
  | none => rfl
  | some b1 =>
    have hlen := listing_loop_len request_path entries _ b1 hl
    rw [List.length_append] at hbig
    have h1 : ¬ b1.len < 8192 := by rw [hlen]; simp only []; omega
    have h2 : ¬ b1.len = 8192 := by rw [hlen]; simp only []; omega
    simp only [Option.bind_eq_bind, Option.some_bind, Buf.snprintf, if_neg h1, if_neg h2,
      Option.none_bind]

theorem listing_item_length (request_path d_name : List Char) :
    (listing_item request_path d_name).length = 25 + request_path.length + 2 * d_name.length := by
  have e1 : (str "<li><a href=\"").length = 13 := by decide
  have e2 : (str "/").length = 1 := by decide
  have e3 : (str "\">").length = 2 := by decide
  have e4 : (str "</a></li>").length = 9 := by decide
  simp only [listing_item, List.length_append, e1, e2, e3, e4]
  omega

theorem listing_items_replicate (request_path d_name : List Char)
    (hd : ¬ (d_name = str "." ∨ d_name = str "..")) : ∀ (n : Nat),
    (listing_items request_path (List.replicate n d_name)).length =
      n * (listing_item request_path d_name).length
  | 0 => by simp [listing_items]
  | n + 1 => by
    rw [List.replicate_succ, listing_items, if_neg hd, List.length_append,
      listing_items_replicate request_path d_name hd n]
    ring

/-! ## Claims about server.c -/

/-- C4: the code at the failing input. `send_error_response(sock, 404, "Not
Found")` writes a head whose status line is `HTTP/1.0 400 Not Found`: the
status passed on to `send_response` is the constant `"400"` for every code but
302. The same head answers `GET /missing.txt HTTP/1.1`. -/
theorem error_status_line_is_400 :
    send_error_response (sample_env [] []) 404 (str "Not Found") =
      some [Event.send (str ("HTTP/1.0 400 Not Found\r\nServer: webserver/1.0\r\n" ++
              "Date: Thu, 01 Jan 1970 00:00:00 GMT\r\nContent-Type: text/html\r\n" ++
              "Content-Length: 104\r\nConnection: close\r\n\r\n")),
            Event.send (error_body 404)] ∧
    handle_client_connection (sample_env (str "GET /missing.txt HTTP/1.1\r\n") []) =
      some ([Event.sscanf (str "GET /missing.txt HTTP/1.1\r\n"),
             Event.stat (str "./missing.txt"),
             Event.send (str ("HTTP/1.0 400 Not Found\r\nServer: webserver/1.0\r\n" ++
               "Date: Thu, 01 Jan 1970 00:00:00 GMT\r\nContent-Type: text/html\r\n" ++
               "Content-Length: 104\r\nConnection: close\r\n\r\n")),
             Event.send (error_body 404), Event.close], 1) ∧
    ¬ str "HTTP/1.0 404 Not Found\r\n" <+:
      str ("HTTP/1.0 400 Not Found\r\nServer: webserver/1.0\r\n" ++
        "Date: Thu, 01 Jan 1970 00:00:00 GMT\r\nContent-Type: text/html\r\n" ++
        "Content-Length: 104\r\nConnection: close\r\n\r\n") := by
  decide

/-- C5 as stated fails: the request line `PROPPATCHX / HTTP/1.1` has exactly
three tokens, an accepted version and a method that is not `GET`, but its
method has ten characters; `%9s` splits it, and the handler answers with the
`Bad Request` response, not with the `Not Supported` response. -/
theorem long_method_not_501 :
    tokens (str "PROPPATCHX / HTTP/1.1") = [str "PROPPATCHX", str "/", str "HTTP/1.1"] ∧
    handle_client_connection (sample_env (str "PROPPATCHX / HTTP/1.1\r\n") []) =
      some ([Event.sscanf (str "PROPPATCHX / HTTP/1.1\r\n"),
             Event.send (str ("HTTP/1.0 400 Bad Request\r\nServer: webserver/1.0\r\n" ++
               "Date: Thu, 01 Jan 1970 00:00:00 GMT\r\nContent-Type: text/html\r\n" ++
               "Content-Length: 105\r\nConnection: close\r\n\r\n")),
             Event.send (error_body 400), Event.close], 1) ∧
    send_error_response (sample_env (str "PROPPATCHX / HTTP/1.1\r\n") []) 501
        (str "Not Supported") =
      some [Event.send (str ("HTTP/1.0 400 Not Supported\r\nServer: webserver/1.0\r\n" ++
               "Date: Thu, 01 Jan 1970 00:00:00 GMT\r\nContent-Type: text/html\r\n" ++
               "Content-Length: 121\r\nConnection: close\r\n\r\n")),
            Event.send (error_body 501)] := by
  decide

/-- C5, amended. For every request line that is terminated by the first CRLF
of the input, fits the request buffer with its CRLF, holds no NUL byte, does
not begin with a line feed right after a CR byte lying before the buffer, and
is made of exactly three white-space separated tokens `m p v` with `v` equal
to `HTTP/1.0` or `HTTP/1.1` and `m` different from `GET` and at most 9
characters long, the handler (the date string fitting its buffer) parses the
line, performs exactly the `send` calls of
`send_error_response(sock, 501, "Not Supported")`, closes the socket and
returns 1; it makes no file system call. -/
theorem not_get_gives_501 (env : Env) (line rest m p v : List Char)
    (hinput : env.input = line ++ '\r' :: '\n' :: rest)
    (hcrlf : ¬ ['\r', '\n'] <:+: line)
    (hlen : line.length + 2 ≤ MAX_REQUEST_SIZE)
    (hnul : '\x00' ∉ line)
    (hfirst : env.before = '\r' → line.head? ≠ some '\n')
    (hdate : (env.rfc1123 env.now).length ≤ 127)
    (htok : tokens line = [m, p, v])
    (hv : v = str "HTTP/1.0" ∨ v = str "HTTP/1.1")
    (hm : m ≠ str "GET") (hm9 : m.length ≤ 9) :
    ∃ head body,
      send_error_response env 501 (str "Not Supported") =
        some [Event.send head, Event.send body] ∧
      handle_client_connection env =
        some ([Event.sscanf (line ++ ['\r', '\n']), Event.send head, Event.send body,
               Event.close], 1) := by
  have hread := read_line_ok hinput hcrlf hlen hfirst
  have hcs := c_string_line hnul
  have htok2 : tokens (line ++ ['\r', '\n']) = [m, p, v] := by
    rw [tokens_append_space _ crlf_space, htok]
  have hp : p.length ≤ 4095 := by
    have := tokens_length_le line p (by simp [htok])
    simp only [MAX_REQUEST_SIZE] at hlen
    omega
  have hv9 : v.length ≤ 9 := by
    rcases hv with rfl | rfl <;> decide
  have hscan := sscanf_request_three htok2 hm9 hp hv9
  have hproto : ¬ (v ≠ str "HTTP/1.0" ∧ v ≠ str "HTTP/1.1") := by
    rcases hv with rfl | rfl <;> simp
  have herr := send_error_response_eq env 501 (str "Not Supported") hdate (by decide)
  refine ⟨_, _, herr, ?_⟩
  unfold handle_client_connection
  rw [hread]
  simp only [hcs, hscan, herr, hproto, hm]
  simp [hm]

/-- Witness for C5, amended: the request line `POST / HTTP/1.1`. -/
theorem not_get_gives_501_witness :
    ∃ head body,
      send_error_response (sample_env (str "POST / HTTP/1.1\r\n") []) 501
          (str "Not Supported") = some [Event.send head, Event.send body] ∧
      handle_client_connection (sample_env (str "POST / HTTP/1.1\r\n") []) =
        some ([Event.sscanf (str "POST / HTTP/1.1" ++ ['\r', '\n']), Event.send head,
               Event.send body, Event.close], 1) :=
  not_get_gives_501 (sample_env (str "POST / HTTP/1.1\r\n") []) (str "POST / HTTP/1.1") []
    (str "POST") (str "/") (str "HTTP/1.1") (by decide) (by decide) (by decide) (by decide)
    (by decide) (by decide) (by decide) (by decide) (by decide) (by decide)

/-- C7 as stated fails: the input `padded_request` supplies 4000 bytes without
CR LF. The handler does not answer with the 500 response; it parses the
4000 bytes as a request line and serves the file `./a.html`. -/
theorem full_buffer_is_parsed :
    padded_request.length = 4000 ∧ '\n' ∉ padded_request ∧
    handle_client_connection (sample_env padded_request []) =
      some ([Event.sscanf padded_request, Event.stat (str "./a.html"),
             Event.access (str "./a.html"), Event.fopen (str "./a.html"),
             Event.send (str ("HTTP/1.0 200 OK\r\nServer: webserver/1.0\r\n" ++
               "Date: Thu, 01 Jan 1970 00:00:00 GMT\r\nContent-Type: text/html\r\n" ++
               "Content-Length: 5\r\nConnection: close\r\n\r\n")),
             Event.send (str "hello"), Event.close], 0) := by
  have hlen : padded_request.length = 4000 := by
    have h1 : (str "GET /a.html HTTP/1.1").length = 20 := by decide
    rw [padded_request, List.length_append, List.length_replicate, h1]
  have hnl : '\n' ∉ padded_request := by
    simp only [padded_request, List.mem_append, List.mem_replicate, not_or]
    exact ⟨by decide, by decide⟩
  have hnul : '\x00' ∉ padded_request := by
    simp only [padded_request, List.mem_append, List.mem_replicate, not_or]
    exact ⟨by decide, by decide⟩
  have htake : padded_request.take MAX_REQUEST_SIZE = padded_request :=
    List.take_of_length_le (by rw [hlen]; decide)
  have hread : read_request_line MAX_REQUEST_SIZE (sample_env padded_request []).before
      (sample_env padded_request []).input = some padded_request := by
    have := read_request_line_full MAX_REQUEST_SIZE padded_request 'x'
      (by rw [htake]; exact not_crlf_of_not_mem hnl) (by decide) (by rw [hlen]; decide)
    rw [htake] at this
    exact this
  have htok : tokens padded_request = [str "GET", str "/a.html", str "HTTP/1.1"] := by
    unfold padded_request
    rw [tokens_append_space _ (fun c hc => by rw [(List.mem_replicate.1 hc).2]; decide)]
    decide
  have hscan := sscanf_request_three htok (by decide) (by decide) (by decide)
  refine ⟨hlen, hnl, ?_⟩
  unfold handle_client_connection
  rw [hread]
  have hserve : serve_path (sample_env padded_request []) (str "/a.html") =
      some ([Event.stat (str "./a.html"),
             Event.access (str "./a.html"), Event.fopen (str "./a.html"),
             Event.send (str ("HTTP/1.0 200 OK\r\nServer: webserver/1.0\r\n" ++
               "Date: Thu, 01 Jan 1970 00:00:00 GMT\r\nContent-Type: text/html\r\n" ++
               "Content-Length: 5\r\nConnection: close\r\n\r\n")),
             Event.send (str "hello"), Event.close], 0) := by
    decide
  have h3 : ¬ ((3 : Int) ≠ 3) := by decide
  have hp : ¬ (str "HTTP/1.1" ≠ str "HTTP/1.0" ∧ str "HTTP/1.1" ≠ str "HTTP/1.1") := by decide
  have hg : ¬ (str "GET" ≠ str "GET") := by decide
  simp only [c_string_eq hnul, hscan, hserve, if_neg h3, if_neg hp, if_neg hg]
  rfl

/-- C7, amended. For every input that ends (or fails) before `MAX_REQUEST_SIZE`
bytes were read, holds no CR LF and does not begin with a line feed right
after a CR byte lying before the buffer, the handler (the date string fitting
its buffer) performs exactly the `send` calls of
`send_error_response(sock, 500, "Internal Server Error")`, closes the socket
and returns 1; it does not call `sscanf` and makes no file system call. -/
theorem eof_before_crlf_gives_500 (env : Env)
    (hcrlf : ¬ ['\r', '\n'] <:+: env.input)
    (hshort : env.input.length < MAX_REQUEST_SIZE)
    (hfirst : env.before = '\r' → env.input.head? ≠ some '\n')
    (hdate : (env.rfc1123 env.now).length ≤ 127) :
    ∃ head body,
      send_error_response env 500 (str "Internal Server Error") =
        some [Event.send head, Event.send body] ∧
      handle_client_connection env = some ([Event.send head, Event.send body, Event.close], 1) := by
  have hread := read_request_line_eof env.input MAX_REQUEST_SIZE env.before hcrlf hfirst hshort
  have herr := send_error_response_eq env 500 (str "Internal Server Error") hdate (by decide)
  refine ⟨_, _, herr, ?_⟩
  unfold handle_client_connection
  rw [hread]
  simp only [herr]
  simp

/-- Witness for C7, amended: the client sends `GET /a.html` and closes. -/
theorem eof_before_crlf_gives_500_witness :
    ∃ head body,
      send_error_response (sample_env (str "GET /a.html") []) 500
          (str "Internal Server Error") = some [Event.send head, Event.send body] ∧
      handle_client_connection (sample_env (str "GET /a.html") []) =
        some ([Event.send head, Event.send body, Event.close], 1) :=
  eof_before_crlf_gives_500 (sample_env (str "GET /a.html") []) (by decide) (by decide)
    (by decide) (by decide)

/-- C8: the code at the failing input. For the readable regular file
`./a.html` of size 5 and modification time 1000000000, `send_file_response`
writes a `200 OK` head with `Content-Length: 5` and no `Last-Modified` line:
it passes `NULL` as `body`, and `send_response` prints the line only when
`body` is not `NULL`. -/
theorem file_response_has_no_last_modified :
    send_file_response (sample_env [] []) (str "./a.html") 5 1000000000 =
      some [Event.fopen (str "./a.html"),
            Event.send (str ("HTTP/1.0 200 OK\r\nServer: webserver/1.0\r\n" ++
              "Date: Thu, 01 Jan 1970 00:00:00 GMT\r\nContent-Type: text/html\r\n" ++
              "Content-Length: 5\r\nConnection: close\r\n\r\n")),
            Event.send (str "hello")] ∧
    ¬ str "Last-Modified" <:+:
      str ("HTTP/1.0 200 OK\r\nServer: webserver/1.0\r\n" ++
        "Date: Thu, 01 Jan 1970 00:00:00 GMT\r\nContent-Type: text/html\r\n" ++
        "Content-Length: 5\r\nConnection: close\r\n\r\n") := by
  decide

/-- C9 as stated fails: for a directory of 16 entries with names of 255
characters, requested as `/`, the items need 16 * 536 bytes, more than the
array `response_body` of 8192 bytes holds. The loop cuts the 16th item, the
running length `response_len` passes the array size, and the next `snprintf`
is called with an offset beyond the array: no body with all items is built. -/
theorem big_directory_listing_overflows :
    (listing_items (str "/") big_dir).length = 16 * 536 ∧
    send_directory_listing (sample_env [] big_dir) (str "./") (str "/") = none := by
  have hd : ¬ (List.replicate 255 'a' = str "." ∨ List.replicate 255 'a' = str "..") := by
    rintro (h | h) <;> exact absurd (congrArg List.length h) (by decide)
  have h0 : (str "<html><body><h1>Directory Listing</h1><ul>").length = 42 := by decide
  have hp : (str "/").length = 1 := by decide
  have hlen : (listing_items (str "/") big_dir).length = 16 * 536 := by
    rw [big_dir, listing_items_replicate _ _ hd, listing_item_length, List.length_replicate, hp]
  refine ⟨hlen, listing_overflow _ _ _ big_dir (by decide) ?_⟩
  rw [List.length_append, hlen, h0]
  decide

/-- C9, amended. For every request path and every directory enumeration whose
listing fits the array `response_body` (the opening text, one item per entry
other than `.` and `..`, and the closing text take fewer than 8192 bytes),
`send_directory_listing` sends a `200 OK` head with `Content-Type: text/html`
and the length of the body, and then the body: the opening text, the items
`<li><a href="p/e">e</a></li>` of the entries other than `.` and `..` in
enumeration order and nothing for `.` and `..`, and the closing text. -/
theorem directory_listing_fits (env : Env) (dir_path request_path : List Char)
    (entries : List (List Char))
    (hopen : env.opendir dir_path = some entries)
    (hdate : (env.rfc1123 env.now).length ≤ 127)
    (hfit : (str "<html><body><h1>Directory Listing</h1><ul>" ++
      ((entries.filter fun e => decide (e ≠ str ".") && decide (e ≠ str "..")).map
        fun e => str "<li><a href=\"" ++ request_path ++ str "/" ++ e ++ str "\">" ++ e ++
          str "</a></li>").flatten ++
      str "</ul></body></html>").length < 8192) :
    send_directory_listing env dir_path request_path =
      some [Event.opendir dir_path,
        Event.send (str "HTTP/1.0 200 OK\r\n" ++ str "Server: webserver/1.0\r\n" ++
          str "Date: " ++ env.rfc1123 env.now ++ str "\r\n" ++
          str "Content-Type: text/html\r\n" ++
          str "Content-Length: " ++
          fmt_ld (str "<html><body><h1>Directory Listing</h1><ul>" ++
            ((entries.filter fun e => decide (e ≠ str ".") && decide (e ≠ str "..")).map
              fun e => str "<li><a href=\"" ++ request_path ++ str "/" ++ e ++ str "\">" ++ e ++
                str "</a></li>").flatten ++
            str "</ul></body></html>").length ++ str "\r\n" ++
          str "Connection: close\r\n\r\n"),
        Event.send (str "<html><body><h1>Directory Listing</h1><ul>" ++
          ((entries.filter fun e => decide (e ≠ str ".") && decide (e ≠ str "..")).map
            fun e => str "<li><a href=\"" ++ request_path ++ str "/" ++ e ++ str "\">" ++ e ++
              str "</a></li>").flatten ++
          str "</ul></body></html>")] := by
  have hitems : ((entries.filter fun e => decide (e ≠ str ".") && decide (e ≠ str "..")).map
      fun e => str "<li><a href=\"" ++ request_path ++ str "/" ++ e ++ str "\">" ++ e ++
        str "</a></li>").flatten = listing_items request_path entries :=
    (listing_items_eq request_path entries).symm
  rw [hitems] at hfit ⊢
  have h0 : ¬ ((0 : Int) > 0) := by decide
  have hd := fmt_ld_length _ (Nat.lt_trans hfit (by decide))
  have hct : (str "Content-Type: " ++ str "text/html" ++ str "\r\n").length = 25 := by decide
  have h1 : (str "200").length = 3 := by decide
  have h2 : (str "OK").length = 2 := by decide
  have hhead : ∀ n : Int, response_head (env.rfc1123 env.now) (str "200") (str "OK") none
        (some (str "text/html")) n none =
      str "HTTP/1.0 200 OK\r\n" ++ str "Server: webserver/1.0\r\n" ++
        str "Date: " ++ env.rfc1123 env.now ++ str "\r\n" ++
        str "Content-Type: text/html\r\n" ++
        str "Content-Length: " ++ fmt_ld n ++ str "\r\n" ++
        str "Connection: close\r\n\r\n" := by
    intro n
    simp [response_head, opt_text, str]
  unfold send_directory_listing
  rw [hopen]
  simp only []
  rw [listing_loop_fits request_path entries _ (length_lt_of_append hfit)]
  simp only [Option.bind_eq_bind, Option.some_bind]
  rw [Buf.snprintf_fits hfit]
  simp only [Option.some_bind]
  rw [send_response_some]
  · rw [if_neg h0, send_bytes_text (Nat.le_of_lt hfit), hhead]
    rfl
  · rw [if_neg h0, response_head_length, h1, h2]
    simp only [Option.map_some', Option.map_none', opt_text, hct, List.length_nil]
    omega

/-- Witness for C9, amended: the directory `./` with the entries `.`, `..`,
`a.html` and `dir`, requested as `/`. -/
theorem directory_listing_fits_witness :
    send_directory_listing
        (sample_env [] [str ".", str "..", str "a.html", str "dir"]) (str "./") (str "/") =
      some [Event.opendir (str "./"),
        Event.send (str "HTTP/1.0 200 OK\r\n" ++ str "Server: webserver/1.0\r\n" ++
          str "Date: " ++ str "Thu, 01 Jan 1970 00:00:00 GMT" ++ str "\r\n" ++
          str "Content-Type: text/html\r\n" ++
          str "Content-Length: " ++
          fmt_ld (str "<html><body><h1>Directory Listing</h1><ul>" ++
            (([str ".", str "..", str "a.html", str "dir"].filter
              fun e => decide (e ≠ str ".") && decide (e ≠ str "..")).map
              fun e => str "<li><a href=\"" ++ str "/" ++ str "/" ++ e ++ str "\">" ++ e ++
                str "</a></li>").flatten ++
            str "</ul></body></html>").length ++ str "\r\n" ++
          str "Connection: close\r\n\r\n"),
        Event.send (str "<html><body><h1>Directory Listing</h1><ul>" ++
          (([str ".", str "..", str "a.html", str "dir"].filter
            fun e => decide (e ≠ str ".") && decide (e ≠ str "..")).map
            fun e => str "<li><a href=\"" ++ str "/" ++ str "/" ++ e ++ str "\">" ++ e ++
              str "</a></li>").flatten ++
          str "</ul></body></html>")] :=
  directory_listing_fits (sample_env [] [str ".", str "..", str "a.html", str "dir"])
    (str "./") (str "/") [str ".", str "..", str "a.html", str "dir"]
    (by decide) (by decide) (by decide)

/-- C10 as stated fails: `GET long_path HTTP/1.1` is a request line whose path
has 3988 characters, none of them white space, `.` followed by the path is a
directory and the path does not end in `/`. The read loop stops after 4000
bytes, in the middle of the version, `sscanf` finds the protocol `HTTP/1.`, and
the handler answers with the `400 Bad Request` response instead of
`302 Found`; `stat` is not called. -/
theorem long_directory_path_gives_400 :
    long_path.length = 3988 ∧ (∀ c ∈ long_path, isspace c = false) ∧ '\x00' ∉ long_path ∧
    long_path.head? = some '/' ∧ long_path.getLast? ≠ some '/' ∧
    long_path_env.input = str "GET " ++ long_path ++ ' ' :: str "HTTP/1.1" ++ ['\r', '\n'] ∧
    long_path_env.stat (str "." ++ long_path) =
      some { kind := .dir, st_size := 4096, st_mtime := 1000000000 } ∧
    handle_client_connection long_path_env =
      some ([Event.sscanf (str "GET " ++ long_path ++ ' ' :: str "HTTP/1."),
             Event.send (str ("HTTP/1.0 400 Bad Request\r\nServer: webserver/1.0\r\n" ++
               "Date: Thu, 01 Jan 1970 00:00:00 GMT\r\nContent-Type: text/html\r\n" ++
               "Content-Length: 105\r\nConnection: close\r\n\r\n")),
             Event.send (error_body 400), Event.close], 1) := by
  have hsp : ∀ c ∈ long_path, isspace c = false := by
    intro c hc
    rcases long_path_mem hc with rfl | rfl <;> decide
  have hnul : '\x00' ∉ long_path := fun h => by
    rcases long_path_mem h with h | h <;> exact absurd h (by decide)
  have hlast : long_path.getLast? ≠ some '/' := by
    have e : long_path = ('/' :: List.replicate 3986 'a') ++ ['a'] := by
      rw [long_path, List.cons_append, ← List.replicate_succ']
    rw [e, List.getLast?_append]
    decide
  have hne : long_path ≠ [] := by rw [long_path]; exact List.cons_ne_nil _ _
  have hl1 : (str "GET " ++ long_path ++ ' ' :: str "HTTP/1.").length = MAX_REQUEST_SIZE := by
    have h1 : (str "GET ").length = 4 := by decide
    have h2 : (str "HTTP/1.").length = 7 := by decide
    rw [List.length_append, List.length_append, List.length_cons, long_path_length, h1, h2]
    rfl
  have hsplit : long_path_env.input =
      (str "GET " ++ long_path ++ ' ' :: str "HTTP/1.") ++ ['1', '\r', '\n'] := by
    show str "GET " ++ long_path ++ ' ' :: str "HTTP/1.1" ++ ['\r', '\n'] = _
    have e : str "HTTP/1.1" = str "HTTP/1." ++ ['1'] := by decide
    rw [e]
    simp only [List.append_assoc, List.cons_append, List.nil_append]
  have htake : long_path_env.input.take MAX_REQUEST_SIZE =
      str "GET " ++ long_path ++ ' ' :: str "HTTP/1." := by
    rw [hsplit, ← hl1, List.take_left']
    rfl
  have hnl : '\n' ∉ str "GET " ++ long_path ++ ' ' :: str "HTTP/1." := by
    simp only [List.mem_append, List.mem_cons, not_or]
    refine ⟨⟨by decide, fun h => ?_⟩, by decide, by decide⟩
    rcases long_path_mem h with h | h <;> exact absurd h (by decide)
  have hnul2 : '\x00' ∉ str "GET " ++ long_path ++ ' ' :: str "HTTP/1." := by
    simp only [List.mem_append, List.mem_cons, not_or]
    exact ⟨⟨by decide, hnul⟩, by decide, by decide⟩
  have hread : read_request_line MAX_REQUEST_SIZE long_path_env.before long_path_env.input =
      some (str "GET " ++ long_path ++ ' ' :: str "HTTP/1.") := by
    have := read_request_line_full MAX_REQUEST_SIZE long_path_env.input long_path_env.before
      (by rw [htake]; exact not_crlf_of_not_mem hnl) (fun h => absurd h (by decide))
      (by
        rw [hsplit, List.length_append, hl1]
        exact Nat.le_add_right _ _)
    rw [htake] at this
    exact this
  have hline : str "GET " ++ long_path ++ ' ' :: str "HTTP/1." =
      str "GET" ++ ' ' :: (long_path ++ ' ' :: str "HTTP/1.") := by
    have e : str "GET " = str "GET" ++ [' '] := by decide
    rw [e]
    simp only [List.append_assoc, List.cons_append, List.nil_append]
  have htok : tokens (str "GET " ++ long_path ++ ' ' :: str "HTTP/1.") =
      [str "GET", long_path, str "HTTP/1."] := by
    rw [hline, tokens_token_space _ _ _ (by decide) (by decide) (by decide),
      tokens_token_space _ _ _ hne hsp (by decide), tokens_token _ (by decide) (by decide)]
  have hscan := sscanf_request_three htok (by decide) (by rw [long_path_length]; decide)
    (by decide)
  have herr : send_error_response long_path_env 400 (str "Bad Request") =
      some [Event.send (str ("HTTP/1.0 400 Bad Request\r\nServer: webserver/1.0\r\n" ++
               "Date: Thu, 01 Jan 1970 00:00:00 GMT\r\nContent-Type: text/html\r\n" ++
               "Content-Length: 105\r\nConnection: close\r\n\r\n")),
             Event.send (error_body 400)] := by
    decide
  have h3 : ¬ ((3 : Int) ≠ 3) := by decide
  have hproto : str "HTTP/1." ≠ str "HTTP/1.0" ∧ str "HTTP/1." ≠ str "HTTP/1.1" := by decide
  have hstat : long_path_env.stat (str "." ++ long_path) =
      some { kind := .dir, st_size := 4096, st_mtime := 1000000000 } := by
    simp only [long_path_env, eq_self_iff_true, if_true]
  refine ⟨long_path_length, hsp, hnul, rfl, hlast, rfl, hstat, ?_⟩
  unfold handle_client_connection
  rw [hread]
  simp only [c_string_eq hnul2, hscan, if_neg h3, if_pos hproto, herr]
  rfl

/-- C10, amended. For every request line `GET p HTTP/1.0` or `GET p HTTP/1.1`
that without its CRLF is at most `MAX_REQUEST_SIZE` (4000) bytes long, so `p`
has at most 3987 characters (`p` a non-empty token without NUL), where `stat`
reports `.` followed by `p` as a directory and `p` does not end in `/`, the
handler (the date string fitting its buffer) parses the bytes read, calls
`stat` once, sends one response head and nothing else, closes the socket and
returns 0. The head is the status line `HTTP/1.0 302 Found`, the `Server` and
`Date` lines, the line `Location: p/`, the line `Content-Length: 0` and
`Connection: close`, ended by an empty line; no body is sent. -/
theorem directory_without_slash_gives_302 (env : Env) (p v rest : List Char) (st : Stat)
    (hinput : env.input = str "GET " ++ p ++ ' ' :: v ++ '\r' :: '\n' :: rest)
    (hv : v = str "HTTP/1.0" ∨ v = str "HTTP/1.1")
    (hp : p ≠ []) (hspace : ∀ c ∈ p, isspace c = false) (hnul : '\x00' ∉ p)
    (hlen : (str "GET " ++ p ++ ' ' :: v).length ≤ MAX_REQUEST_SIZE)
    (hdate : (env.rfc1123 env.now).length ≤ 127)
    (hstat : env.stat (str "." ++ p) = some st) (hdir : st.kind = .dir)
    (hslash : p.getLast? ≠ some '/') :
    handle_client_connection env =
      some ([Event.sscanf
               ((str "GET " ++ p ++ ' ' :: v ++ ['\r', '\n']).take MAX_REQUEST_SIZE),
             Event.stat (str "." ++ p),
             Event.send (str "HTTP/1.0 302 Found\r\n" ++ str "Server: webserver/1.0\r\n" ++
               str "Date: " ++ env.rfc1123 env.now ++ str "\r\n" ++
               str "Location: " ++ p ++ str "/" ++ str "\r\n" ++
               str "Content-Length: 0\r\n" ++ str "Connection: close\r\n\r\n"),
             Event.close], 0) := by
  have hvlen : v.length = 8 := by rcases hv with rfl | rfl <;> decide
  have hvsp : ∀ c ∈ v, isspace c = false := by rcases hv with rfl | rfl <;> decide
  have hvnul : '\x00' ∉ v := by rcases hv with rfl | rfl <;> decide
  have hvne : v ≠ [] := by rcases hv with rfl | rfl <;> decide
  have hplen : p.length ≤ 3987 := by
    simp only [List.length_append, List.length_cons, MAX_REQUEST_SIZE, hvlen] at hlen
    have : (str "GET ").length = 4 := by decide
    omega
  have hline : str "GET " ++ p ++ ' ' :: v = str "GET" ++ ' ' :: (p ++ ' ' :: v) := by
    simp [str]
  have hpnl : '\n' ∉ p := fun h => by simpa using (hspace _ h).symm.trans (by decide : isspace '\n' = true)
  have hvnl : '\n' ∉ v := fun h => by simpa using (hvsp _ h).symm.trans (by decide : isspace '\n' = true)
  have hnl : '\n' ∉ str "GET " ++ p ++ ' ' :: v := by
    simp only [List.mem_append, List.mem_cons, not_or]
    exact ⟨⟨by decide, hpnl⟩, by decide, hvnl⟩
  have hnul2 : '\x00' ∉ str "GET " ++ p ++ ' ' :: v := by
    simp only [List.mem_append, List.mem_cons, not_or]
    exact ⟨⟨by decide, hnul⟩, by decide, hvnul⟩
  have hinput2 : env.input = (str "GET " ++ p ++ ' ' :: v) ++ '\r' :: '\n' :: rest := hinput
  have hread := read_line_take hinput2 hnl hlen
  have hnul3 : '\x00' ∉ ((str "GET " ++ p ++ ' ' :: v) ++ ['\r', '\n']).take MAX_REQUEST_SIZE := by
    intro hm
    have hm2 := List.mem_of_mem_take hm
    rw [List.mem_append] at hm2
    rcases hm2 with hm2 | hm2
    · exact hnul2 hm2
    · exact absurd hm2 (by decide)
  have hcs := c_string_eq hnul3
  have htok : tokens (((str "GET " ++ p ++ ' ' :: v) ++ ['\r', '\n']).take MAX_REQUEST_SIZE) =
      [str "GET", p, v] := by
    rw [take_line_crlf hlen,
      tokens_append_space _ (fun c hc => crlf_space c (List.mem_of_mem_take hc)), hline,
      tokens_token_space _ _ _ (by decide) (by decide) (by decide),
      tokens_token_space _ _ _ hp hspace (by decide), tokens_token _ hvne hvsp]
  have hscan := sscanf_request_three htok (by decide) (by omega) (by omega)
  have hproto : ¬ (v ≠ str "HTTP/1.0" ∧ v ≠ str "HTTP/1.1") := by
    rcases hv with rfl | rfl <;> simp
  have hfull : (str "." ++ p).take (MAX_PATH_SIZE - 1) = str "." ++ p :=
    List.take_of_length_le (by
      have : (str ".").length = 1 := by decide
      simp only [List.length_append, MAX_PATH_SIZE, this]; omega)
  have hloc : (p ++ str "/").take (MAX_PATH_SIZE - 1) = p ++ str "/" :=
    List.take_of_length_le (by
      have : (str "/").length = 1 := by decide
      simp only [List.length_append, MAX_PATH_SIZE, this]; omega)
  have hsend := send_response_none env (str "302") (str "Found") none 0
    (some (p ++ str "/")) 0 (by
      have h1 : (str "302").length = 3 := by decide
      have h2 : (str "Found").length = 5 := by decide
      have h3 : (fmt_ld 0).length = 1 := by decide
      have h4 : (str "Location: ").length = 10 := by decide
      have h5 : (str "/").length = 1 := by decide
      have h6 : (str "\r\n").length = 2 := by decide
      rw [response_head_length, h1, h2, h3]
      simp only [Option.map_some', Option.map_none', opt_text, List.length_append, h4, h5, h6,
        List.length_nil]
      omega)
  have hhead : response_head (env.rfc1123 env.now) (str "302") (str "Found")
        (some (p ++ str "/")) none 0 none =
      str "HTTP/1.0 302 Found\r\n" ++ str "Server: webserver/1.0\r\n" ++
        str "Date: " ++ env.rfc1123 env.now ++ str "\r\n" ++
        str "Location: " ++ p ++ str "/" ++ str "\r\n" ++
        str "Content-Length: 0\r\n" ++ str "Connection: close\r\n\r\n" := by
    have h0 : fmt_ld 0 = ['0'] := by decide
    simp [response_head, opt_text, str, h0]
  have hg : ¬ (str "GET" ≠ str "GET") := by decide
  have h3 : ¬ ((3 : Int) ≠ 3) := by decide
  unfold handle_client_connection
  rw [hread]
  have hserve : serve_path env p =
      some ([Event.stat (str "." ++ p),
        Event.send (response_head (env.rfc1123 env.now) (str "302") (str "Found")
          (some (p ++ str "/")) none 0 none), Event.close], 0) := by
    unfold serve_path
    simp only [hfull, hstat, hdir, hloc, hsend, hslash]
    simp [hslash]
  simp only [hcs, hscan, if_neg h3, if_neg hproto, if_neg hg, hserve, hhead]
  rfl

/-- Witness for C10, amended: `GET /dir HTTP/1.1` followed by a header, where
`./dir` is a directory. -/
theorem directory_without_slash_gives_302_witness :
    handle_client_connection (sample_env (str "GET /dir HTTP/1.1\r\nHost: x\r\n\r\n") []) =
      some ([Event.sscanf
               ((str "GET " ++ str "/dir" ++ ' ' :: str "HTTP/1.1" ++ ['\r', '\n']).take
                 MAX_REQUEST_SIZE),
             Event.stat (str "." ++ str "/dir"),
             Event.send (str "HTTP/1.0 302 Found\r\n" ++ str "Server: webserver/1.0\r\n" ++
               str "Date: " ++
               str "Thu, 01 Jan 1970 00:00:00 GMT" ++
               str "\r\n" ++
               str "Location: " ++ str "/dir" ++ str "/" ++ str "\r\n" ++
               str "Content-Length: 0\r\n" ++ str "Connection: close\r\n\r\n"),
             Event.close], 0) :=
  directory_without_slash_gives_302 (sample_env (str "GET /dir HTTP/1.1\r\nHost: x\r\n\r\n") [])
    (str "/dir") (str "HTTP/1.1") (str "Host: x\r\n\r\n")
    { kind := .dir, st_size := 4096, st_mtime := 1000000000 }
    (by decide) (by decide) (by decide) (by decide) (by decide) (by decide) (by decide)
    (by decide) (by decide) (by decide)

/-! ## The shutdown invariant of threadpool.c -/

/-- C11. In every state reached from `create_threadpool(n, cap)` by a schedule
of `dispatch`, `do_work` and `destroy_threadpool` steps, `shutdown = 1` implies
`dont_accept = 1` and `qsize = 0`. A worker that observes `shutdown` leaves its
loop without testing `qsize`, and a worker leaves its loop only in a state with
`shutdown = 1`, `dont_accept = 1` and `qsize = 0`. When the locked section of
`destroy_threadpool` completes, at its entry or after a wake-up, and in every
state with `shutdown = 1`, the queue is empty (`qhead` is `NULL`) and every job
enqueued has been handed to a worker. -/
theorem shutdown_implies_drained (MAXT_IN_POOL MAXW_IN_QUEUE n cap : Int) (resources : Bool)
    (pool : threadpool) (ops : List Op)
    (hcreate : create_threadpool MAXT_IN_POOL MAXW_IN_QUEUE n cap resources = some pool)
    (hint : cap ≤ INT_MAX) :
    ∃ w, (World.init pool).run ops = some w ∧
      (w.pool.shutdown = 1 → w.pool.dont_accept = 1 ∧ w.pool.qsize = 0) ∧
      (w.pool.shutdown ≠ 0 → do_work_locked w.pool w.heap = .done (w.pool, none)) ∧
      (∀ p, do_work_locked w.pool w.heap = .done (p, none) →
        w.pool.shutdown = 1 ∧ w.pool.dont_accept = 1 ∧ w.pool.qsize = 0) ∧
      (w.pool.shutdown = 1 → w.pool.qhead = none ∧ w.enqueued = w.handed) ∧
      (∀ p, destroy_threadpool_locked w.pool = .done p ∨
          destroy_threadpool_wait w.pool = .done p →
        p.shutdown = 1 ∧ p.qsize = 0 ∧ p.qhead = none ∧ w.enqueued = w.handed) := by
  obtain ⟨w, q, hr, hi⟩ := Inv.run ops (Inv.init hcreate hint)
  obtain ⟨hs0, hd0⟩ := create_threadpool_flags hcreate
  obtain ⟨hfs, hfd⟩ := run_flags ops hr
    (show ((World.init pool).pool.shutdown = 0 ∨ (World.init pool).pool.shutdown = 1) ∧
      ((World.init pool).pool.dont_accept = 0 ∨ (World.init pool).pool.dont_accept = 1) from
      ⟨Or.inl hs0, Or.inl hd0⟩)
  have hdown : w.pool.shutdown = 1 → w.pool.dont_accept = 1 ∧ w.pool.qsize = 0 := by
    intro h1
    have hne : w.pool.shutdown ≠ 0 := by rw [h1]; decide
    obtain ⟨hda, hq0⟩ := hi.down hne
    exact ⟨hfd.resolve_left hda, hq0⟩
  have h0 := hi.size_nonneg
  refine ⟨w, hr, hdown, ?_, ?_, fun h1 => hi.drained (hdown h1).2, ?_⟩
  · intro hne
    simp [do_work_locked, hne]
  · intro p hp
    unfold do_work_locked at hp
    split at hp
    · cases hp
    split at hp
    · rename_i hne
      have h1 := hfs.resolve_left hne
      exact ⟨h1, hdown h1⟩
    split at hp
    · cases hp
    split at hp
    · cases hp
    split at hp <;> cases hp
  · intro p hp
    have hq0 : w.pool.qsize = 0 ∧ p = { w.pool with shutdown := 1 } ∨
        w.pool.qsize = 0 ∧ p = { w.pool with dont_accept := 1, shutdown := 1 } := by
      rcases hp with hp | hp
      · simp only [destroy_threadpool_locked, destroy_threadpool_wait] at hp
        split at hp
        · cases hp
        · rename_i hle
          cases hp
          exact Or.inr ⟨by omega, rfl⟩
      · simp only [destroy_threadpool_wait] at hp
        split at hp
        · cases hp
        · rename_i hle
          cases hp
          exact Or.inl ⟨by omega, rfl⟩
    rcases hq0 with ⟨hz, rfl⟩ | ⟨hz, rfl⟩
    · exact ⟨rfl, hz, hi.drained hz⟩
    · exact ⟨rfl, hz, hi.drained hz⟩

/-- Witness for C11: a job is queued, `destroy_threadpool` is entered and
waits, a worker takes the job, `destroy_threadpool` wakes up and sets
`shutdown`, and the worker leaves its loop. -/
theorem shutdown_implies_drained_witness :
    ∃ w, (World.init
        { num_threads := 1, qsize := 0, max_qsize := 2, qhead := none, qtail := none,
          shutdown := 0, dont_accept := 0 }).run
        [.dispatch 1 10 (some 0), .destroy, .do_work, .destroy_wake, .do_work] = some w ∧
      (w.pool.shutdown = 1 → w.pool.dont_accept = 1 ∧ w.pool.qsize = 0) ∧
      (w.pool.shutdown ≠ 0 → do_work_locked w.pool w.heap = .done (w.pool, none)) ∧
      (∀ p, do_work_locked w.pool w.heap = .done (p, none) →
        w.pool.shutdown = 1 ∧ w.pool.dont_accept = 1 ∧ w.pool.qsize = 0) ∧
      (w.pool.shutdown = 1 → w.pool.qhead = none ∧ w.enqueued = w.handed) ∧
      (∀ p, destroy_threadpool_locked w.pool = .done p ∨
          destroy_threadpool_wait w.pool = .done p →
        p.shutdown = 1 ∧ p.qsize = 0 ∧ p.qhead = none ∧ w.enqueued = w.handed) :=
  shutdown_implies_drained 200 200 1 2 true _ _ (by decide) (by decide)

end HTTPServer
